import Mathlib

/-!
# Smart-Door-System: tag registry and RC522 transceive engine

A shallow embedding of `src/app/src/rfid_handler.c` (tag registry, `addTag`,
`removeTag`, `tagExists`, `getTag`, the polling loop `rfid_handler_start`) and of
`src/hal/src/rfid.c` (register access over SPI, FIFO access, `rfid_transceive`,
`rfid_get_uid`), followed by theorems about them.

Conventions.
* C `int` / `uint8_t` / `uint32_t` / `uint64_t` values are `Int` / `Nat`; where the
  source narrows a value the model reduces it `% 2^w` explicitly.
* The file-scope statics of a translation unit become the fields of a state record
  that every function takes and returns.
* Calls into collaborators (servo, door handler, display, logger, sleep) are recorded,
  in program order, in a trace; values read from collaborators (clock, joystick,
  display countdown, door position, SPI bus) come from an environment record.
* Diagnostic `printf` output to stdout is not part of the model.
-/

namespace SmartDoor

/-! ## Data model of `rfid_handler.c` -/

/-- Capacity of the registry: `#define MAXIMUM_RFID_TAGS 256` (rfid_handler.c:26). -/
def MAXIMUM_RFID_TAGS : Int := 256

/-- Modelled from the spec: the struct `rfid_tag` is declared in a header that is not
among the sources (`shared_data_struct.h` / `rfid_handler.h`). Spec section 3 gives a
Tag as a 32-bit unsigned `uid`, a boolean `allowed` and a timestamp `last_seen`; these
are exactly the three members the source reads and writes. -/
structure rfid_tag where
  uid : Nat
  allowed : Bool
  last_seen : Int
deriving DecidableEq

/-- Modelled from the spec: the two actuator positions `DOOR_OPEN` and `DOOR_CLOSED`
come from a header that is not among the sources; spec section 6 gives the door
actuator the positions Open and Closed. -/
inductive DoorPosition where
  | DOOR_OPEN
  | DOOR_CLOSED
deriving DecidableEq

/-- Modelled from the spec: the values of `joystick_get_input()` come from
`hal/joystick.h`, which is not among the sources; spec section 6 gives the human input
the values Left, Right and Neutral. -/
inductive JoystickInput where
  | LEFT
  | RIGHT
  | NEUTRAL
deriving DecidableEq

/-- The three messages `rfid_handler.c` hands to `enqueueLog`, with the values that
are formatted into them: the time stamp, the uid and, for the first two, `allowed`. -/
inductive LogMsg where
  | KNOWN_TAG (time : Int) (uid : Nat) (allowed : Bool)
  | NEW_TAG (time : Int) (uid : Nat) (allowed : Bool)
  | TAG_REMOVED (time : Int) (uid : Nat)
deriving DecidableEq

/-- Calls made by `rfid_handler.c` into its collaborators. -/
inductive Event where
  | servo_set_position_deg (pos : DoorPosition)
  | sleep_for_ms (ms : Nat)
  | door_handler_set_position (pos : DoorPosition)
  | display_handler_update_value (value : Int)
  | enqueueLog (msg : LogMsg)
deriving DecidableEq

/-- The file-scope statics of `rfid_handler.c` (`tags`, `num_tags`, `cancel_thread`)
together with the trace of collaborator calls made so far. `tags` maps an array index
to the slot content; the source only touches indices below `MAXIMUM_RFID_TAGS` as long
as `0 ≤ num_tags ≤ MAXIMUM_RFID_TAGS`. -/
structure HandlerState where
  tags : Nat → rfid_tag
  num_tags : Int
  cancel_thread : Bool
  trace : List Event

/-- State at program start: statics are zero-initialised, `num_tags = 0`,
`cancel_thread = false` (rfid_handler.c:22-28). -/
def initial_state : HandlerState :=
  { tags := fun _ => { uid := 0, allowed := false, last_seen := 0 }
    num_tags := 0
    cancel_thread := false
    trace := [] }

/-- Array store `tags[i] = v`. -/
def store (tags : Nat → rfid_tag) (i : Nat) (v : rfid_tag) : Nat → rfid_tag :=
  fun j => if j = i then v else tags j

/-- Indices visited by `for (int i = 0; i < num_tags; i++)`. -/
def indices (num_tags : Int) : List Nat :=
  List.range num_tags.toNat

/-- The stored sequence: the first `num_tags` slots, in index order. -/
def stored (s : HandlerState) : List rfid_tag :=
  (indices s.num_tags).map s.tags

/-! ## `tagExists`, `getTag` (rfid_handler.c:210-231) -/

/-- Loop of `tagExists`: return `true` at the first visited index whose uid matches. -/
def tagExists_loop (tags : Nat → rfid_tag) (uid : Nat) : List Nat → Bool
  | [] => false
  | i :: rest => if (tags i).uid = uid then true else tagExists_loop tags uid rest

/-- Source: `static bool tagExists(uint32_t uid)`. -/
def tagExists (s : HandlerState) (uid : Nat) : Bool :=
  tagExists_loop s.tags uid (indices s.num_tags)

/-- Loop of `getTag`: return the slot at the first visited index whose uid matches. -/
def getTag_loop (tags : Nat → rfid_tag) (uid : Nat) : List Nat → Option rfid_tag
  | [] => none
  | i :: rest => if (tags i).uid = uid then some (tags i) else getTag_loop tags uid rest

/-- Source: `rfid_tag getTag(uint32_t uid)`: the matching slot, by value; when the loop finds
none the function returns `tags[0]`. -/
def getTag (s : HandlerState) (uid : Nat) : rfid_tag :=
  match getTag_loop s.tags uid (indices s.num_tags) with
  | some t => t
  | none => s.tags 0

/-! ## `removeTag` (rfid_handler.c:180-206) -/

/-- One pass of the body of the `for` loop of `removeTag` at index `i`, on the pair
(array, `found`). -/
def removeTag_body (uid : Nat) (num_tags : Int) (st : (Nat → rfid_tag) × Bool) (i : Nat) :
    (Nat → rfid_tag) × Bool :=
  let found := if (st.1 i).uid = uid then true else st.2
  if found = true ∧ (i : Int) < num_tags - 1 then
    (store st.1 i (st.1 (i + 1)), found)
  else
    (st.1, found)

/-- The `for` loop of `removeTag`, started with `found = 0`. -/
def removeTag_loop (s : HandlerState) (uid : Nat) : (Nat → rfid_tag) × Bool :=
  (indices s.num_tags).foldl (removeTag_body uid s.num_tags) (s.tags, false)

/-- Source: `static void removeTag(uint32_t uid)`; `now` is the value of `time(NULL)`. -/
def removeTag (now : Int) (s : HandlerState) (uid : Nat) : HandlerState :=
  let r := removeTag_loop s uid
  if r.2 = true then
    { s with
      tags := r.1
      num_tags := s.num_tags - 1
      trace := s.trace ++ [Event.enqueueLog (LogMsg.TAG_REMOVED now uid)] }
  else
    { s with tags := r.1 }

/-! ## `addTag` (rfid_handler.c:96-176) -/

/-- Values `addTag` reads from its collaborators during one call: the clock, the door
position reported by the door handler, and the successive readings of the countdown
display and of the joystick inside the busy-wait. -/
structure AddTagEnv where
  now : Int
  door_position : DoorPosition
  display : Nat → Int
  joystick : Nat → JoystickInput

/-- The busy-wait of rfid_handler.c:136-145, from its `n`-th pass on. The result is
`some true` when the wait was left because the joystick read `RIGHT`, `some false` when
it was left because the display value was no longer positive, and `none` when `fuel`
passes did not suffice. -/
def busy_wait (env : AddTagEnv) : Nat → Nat → Option Bool
  | 0, _ => none
  | fuel + 1, n =>
    if env.display n > 0 then
      if env.joystick n = JoystickInput.RIGHT then some true
      else busy_wait env fuel (n + 1)
    else some false

/-- Append collaborator calls to the trace. -/
def emit (s : HandlerState) (es : List Event) : HandlerState :=
  { s with trace := s.trace ++ es }

/-- Source: `static void addTag(uint32_t uid, int permission)`. The result is `none` only when
the busy-wait did not finish within `fuel` passes. -/
def addTag (env : AddTagEnv) (fuel : Nat) (s : HandlerState) (uid : Nat) (permission : Int) :
    Option HandlerState :=
  if tagExists s uid = true then
    -- `rfid_tag tag = getTag(uid);` is a copy of the slot; the two assignments
    -- below write the copy.
    let tag0 := getTag s uid
    let tag : rfid_tag := { tag0 with allowed := decide (permission ≠ 0), last_seen := env.now }
    let s1 := emit s [Event.enqueueLog (LogMsg.KNOWN_TAG tag.last_seen tag.uid tag.allowed)]
    if tag.allowed = true then
      let s2 := emit s1
        [ Event.servo_set_position_deg DoorPosition.DOOR_OPEN
        , Event.sleep_for_ms 5000
        , Event.servo_set_position_deg DoorPosition.DOOR_CLOSED ]
      if env.door_position = DoorPosition.DOOR_CLOSED then
        let s3 := emit s2
          [ Event.servo_set_position_deg DoorPosition.DOOR_OPEN
          , Event.door_handler_set_position DoorPosition.DOOR_OPEN
          , Event.display_handler_update_value (5 * 1000) ]
        match busy_wait env fuel 0 with
        | none => none
        | some cancelled =>
          let s4 : HandlerState :=
            if cancelled = true then { s3 with cancel_thread := true } else s3
          some (emit s4
            [ Event.servo_set_position_deg DoorPosition.DOOR_CLOSED
            , Event.door_handler_set_position DoorPosition.DOOR_CLOSED ])
      else some s2
    else some s1
  else if s.num_tags < MAXIMUM_RFID_TAGS then
    let slot : rfid_tag := { uid := uid, allowed := decide (permission ≠ 0), last_seen := env.now }
    let s1 : HandlerState :=
      { s with tags := store s.tags s.num_tags.toNat slot, num_tags := s.num_tags + 1 }
    some (emit s1 [Event.enqueueLog (LogMsg.NEW_TAG slot.last_seen slot.uid slot.allowed)])
  else
    some s

/-! ## Data model of `rfid.c` -/

/-- Modelled from the spec: the status codes `MI_OK`, `MI_ERR`, `MI_TIMEOUT` are
defined in `hal/rfid.h`, which is not among the sources; spec section 3 gives the
transceive status as the tagged result Ok, ProtocolError, Timeout. -/
inductive Status where
  | MI_OK
  | MI_ERR
  | MI_TIMEOUT
deriving DecidableEq

/-- Modelled from the spec: register addresses, command codes, bit positions and masks
named in `rfid.c` are defined in `hal/rfid.h`, which is not among the sources. They are
taken as parameters: every theorem below holds for all values of them. -/
structure RfidHeader where
  CommandReg : Nat
  ComIrqReg : Nat
  FIFODataReg : Nat
  FIFOLevelReg : Nat
  BitFramingReg : Nat
  Idle : Nat
  Transceive : Nat
  FIFOLEVELREG_FLUSHBUFFER_BIT : Nat
  COMIRQREG_CLEAR_ALL_IRQS : Nat
  BITFRAMINGREG_STARTSEND_BIT : Nat
  COMIRQREG_RXIRQ_MASK : Nat
  COMIRQREG_IDLEIRQ_MASK : Nat
  COMIRQREG_TIMERIRQ_MASK : Nat
  REG_WRITE_OP_MASK : Nat
  REG_READ_OP_MASK : Nat
  REG_ADDR_BIT : Nat
  PICC_REQA : Nat
  PICC_SEL_CL1 : Nat
  ANTICOLL_BUF_B2_VALID_BYTES_IN_BUFFER_BIT : Nat

/-- The values of the MFRC522 data sheet and of ISO 14443-3 for the header constants,
used for concrete evaluation. -/
def mfrc522 : RfidHeader :=
  { CommandReg := 0x01
    ComIrqReg := 0x04
    FIFODataReg := 0x09
    FIFOLevelReg := 0x0A
    BitFramingReg := 0x0D
    Idle := 0x00
    Transceive := 0x0C
    FIFOLEVELREG_FLUSHBUFFER_BIT := 7
    COMIRQREG_CLEAR_ALL_IRQS := 0x7F
    BITFRAMINGREG_STARTSEND_BIT := 7
    COMIRQREG_RXIRQ_MASK := 0x20
    COMIRQREG_IDLEIRQ_MASK := 0x10
    COMIRQREG_TIMERIRQ_MASK := 0x01
    REG_WRITE_OP_MASK := 0x00
    REG_READ_OP_MASK := 0x80
    REG_ADDR_BIT := 1
    PICC_REQA := 0x26
    PICC_SEL_CL1 := 0x93
    ANTICOLL_BUF_B2_VALID_BYTES_IN_BUFFER_BIT := 4 }

/-- A byte buffer in memory: index to byte. -/
abbrev Buffer := Nat → Nat

/-- The file-scope statics of `rfid.c` that the transfer path reads
(`spi_device_opened`, `spiFileDesc`) together with the SPI bus.
* `rx k j` is byte `j` clocked in from the device during the `k`-th transfer (counted
  from 0) that reaches the bus: the bus behaviour.
* `log` holds the bytes clocked out by each transfer made so far, oldest first.
* `indeterminate` is the content of an automatic buffer that is read before anything
  was stored in it.
The return value of the `ioctl` is not modelled: every caller discards it, and the
receive buffer of a failed `ioctl` holds bytes that some `rx` also delivers. -/
structure SpiState where
  spi_device_opened : Bool
  spiFileDesc : Int
  rx : Nat → Nat → Nat
  log : List (List Nat)
  indeterminate : Buffer

/-- Narrowing to `uint8_t`. -/
def u8 (x : Nat) : Nat := x % 2 ^ 8

/-- Source: `static int rfid_spi_transfer(uint8_t *sendBuf, uint8_t *recvBuf, int len)`: with a
negative descriptor nothing is transferred and `recvBuf` is left as it was; otherwise
`len` bytes go out and `len` bytes come in. The result is the receive buffer. -/
def rfid_spi_transfer (sendBuf : List Nat) (recvBuf : Buffer) (len : Nat) (s : SpiState) :
    Buffer × SpiState :=
  if s.spiFileDesc < 0 then
    (recvBuf, s)
  else
    let k := s.log.length
    (fun j => if j < len then u8 (s.rx k j) else recvBuf j,
     { s with log := s.log ++ [sendBuf.take len] })

/-- Source: `static void rfid_write(uint8_t addr, uint8_t data)`. -/
def rfid_write (addr data : Nat) (s : SpiState) : SpiState :=
  let sendBuf := [u8 (u8 addr <<< 1), u8 data]
  (rfid_spi_transfer sendBuf (fun _ => 0) 2 s).2

/-- Source: `static uint8_t rfid_read(uint8_t addr)`. -/
def rfid_read (addr : Nat) (s : SpiState) : Nat × SpiState :=
  let sendBuf := [u8 ((1 <<< 7) ||| (u8 addr <<< 1)), 0x00]
  let r := rfid_spi_transfer sendBuf (fun _ => 0) 2 s
  (r.1 1, r.2)

/-- Source: `static void rfid_fifo_write(uint8_t *buff, uint8_t size)`. -/
def rfid_fifo_write (h : RfidHeader) (buff : List Nat) (size : Nat) (s : SpiState) : SpiState :=
  let payload := u8 (u8 size + 1)
  let sendBuf := u8 (h.REG_WRITE_OP_MASK ||| (h.FIFODataReg <<< h.REG_ADDR_BIT)) :: buff.take (u8 size)
  (rfid_spi_transfer sendBuf s.indeterminate payload s).2

/-- Source: `static void rfid_fifo_read(uint8_t *buff, uint8_t size)`: the result is `buff`
after the `memcpy` of `size` bytes from `recvBuf + 1`. For `size = 255` the `uint8_t`
`payload` wraps to 0; C gives the arrays of length 0 and the `memset` of `payload - 1`
bytes no defined behaviour; the model is meant for `size ≤ 254`, which the callers in
the repository, with a requested length of at most 5, never exceed. -/
def rfid_fifo_read (h : RfidHeader) (buff : Buffer) (size : Nat) (s : SpiState) :
    Buffer × SpiState :=
  let payload := u8 (u8 size + 1)
  let sendBuf :=
    List.replicate (payload - 1) (u8 (h.REG_READ_OP_MASK ||| (h.FIFODataReg <<< h.REG_ADDR_BIT))) ++ [0]
  let r := rfid_spi_transfer sendBuf s.indeterminate payload s
  (fun j => if j < u8 size then r.1 (j + 1) else buff j, r.2)

/-- Source: `const uint32_t poll_interval_us = 10;` (rfid.c:242). -/
def poll_interval_us : Nat := 10

/-- Source: `const uint32_t timeout_us = 25000;` (rfid.c:243). -/
def timeout_us : Nat := 25000

/-- The `while(true)` poll loop of `rfid_transceive` (rfid.c:248-271), entered with
`elapsed_time = elapsed`. The result is the status, the final `elapsed_time` and the bus
state, or `none` when `fuel` passes did not reach a `break`. -/
def poll_loop (h : RfidHeader) : Nat → Nat → SpiState → Option (Status × Nat × SpiState)
  | 0, _, _ => none
  | fuel + 1, elapsed, s =>
    let elapsed_time := (elapsed + poll_interval_us) % 2 ^ 32
    let r := rfid_read h.ComIrqReg s
    let interruptStatus := r.1
    if interruptStatus &&& (h.COMIRQREG_RXIRQ_MASK ||| h.COMIRQREG_IDLEIRQ_MASK) ≠ 0 then
      some (Status.MI_OK, elapsed_time, r.2)
    else if interruptStatus &&& h.COMIRQREG_TIMERIRQ_MASK ≠ 0 then
      some (Status.MI_ERR, elapsed_time, r.2)
    else if elapsed_time ≥ timeout_us then
      some (Status.MI_TIMEOUT, elapsed_time, r.2)
    else
      poll_loop h fuel elapsed_time r.2

/-- Result of `rfid_transceive`: the returned status and the caller's `recvBuf` and
`*recvLen` afterwards (`none` for a null pointer), with the bus state. -/
structure TransceiveResult where
  status : Status
  recvBuf : Option Buffer
  recvLen : Option Nat
  spi : SpiState

/-- Lines 222-239 of `rfid_transceive`: everything before the poll loop. -/
def transceive_start (h : RfidHeader) (sendBuf : List Nat) (sendLen : Nat) (s : SpiState) :
    SpiState :=
  let s := rfid_write h.CommandReg h.Idle s
  let s := rfid_write h.FIFOLevelReg (1 <<< h.FIFOLEVELREG_FLUSHBUFFER_BIT) s
  let s := rfid_write h.ComIrqReg h.COMIRQREG_CLEAR_ALL_IRQS s
  let s := rfid_fifo_write h sendBuf sendLen s
  let s := rfid_write h.CommandReg h.Transceive s
  let r := rfid_read h.BitFramingReg s
  let bitFraming := r.1
  rfid_write h.BitFramingReg (bitFraming ||| (1 <<< h.BITFRAMINGREG_STARTSEND_BIT)) r.2

/-- Lines 273-288 of `rfid_transceive`: everything after the poll loop. -/
def transceive_finish (h : RfidHeader) (status : Status) (recvBuf : Option Buffer)
    (recvLen : Option Nat) (s : SpiState) : TransceiveResult :=
  let s := rfid_write h.BitFramingReg 0x00 s
  let s := rfid_write h.CommandReg h.Idle s
  let r := rfid_read h.FIFOLevelReg s
  let fifoVal := r.1
  let s := r.2
  match status, recvLen with
  | Status.MI_OK, some len =>
    let len := if len > fifoVal then fifoVal else len
    match recvBuf with
    | some buf =>
      let b := rfid_fifo_read h buf len s
      { status := status, recvBuf := some b.1, recvLen := some len, spi := b.2 }
    | none => { status := status, recvBuf := none, recvLen := some len, spi := s }
  | _, _ => { status := status, recvBuf := recvBuf, recvLen := recvLen, spi := s }

/-- Source: `static int rfid_transceive(uint8_t *sendBuf, uint8_t sendLen, uint8_t *recvBuf,
uint8_t *recvLen)`. The result is `none` only when the poll loop did not finish within
`fuel` passes. -/
def rfid_transceive (h : RfidHeader) (fuel : Nat) (sendBuf : List Nat) (sendLen : Nat)
    (recvBuf : Option Buffer) (recvLen : Option Nat) (s : SpiState) : Option TransceiveResult :=
  let s := transceive_start h sendBuf sendLen s
  match poll_loop h fuel 0 s with
  | none => none
  | some (status, _, s) => some (transceive_finish h status recvBuf recvLen s)

/-- The loop of rfid.c:326-328 over the indices still to visit: fold the bytes of
`recvBuf` (each a `uint8_t`) into the 64-bit accumulator. -/
def fold_uid (recvBuf : Buffer) : List Nat → Nat → Nat
  | [], uid => uid
  | i :: rest, uid => fold_uid recvBuf rest (((uid <<< 8) % 2 ^ 64) ||| u8 (recvBuf i))

/-- Result of `rfid_get_uid`: the returned status and `*uid` afterwards, with the bus
state. -/
structure GetUidResult where
  status : Status
  uid : Nat
  spi : SpiState

/-- Source: `int rfid_get_uid(uint64_t *uid)`, called with `*uid = uid`. The result is `none`
only when a poll loop did not finish within `fuel` passes. -/
def rfid_get_uid (h : RfidHeader) (fuel : Nat) (uid : Nat) (s : SpiState) : Option GetUidResult :=
  if s.spi_device_opened = false then
    some { status := Status.MI_ERR, uid := uid, spi := s }
  else
    let s := rfid_write h.BitFramingReg 7 s
    let sendReq := u8 h.PICC_REQA
    match rfid_transceive h fuel [sendReq] 1 none none s with
    | none => none
    | some r1 =>
      if r1.status ≠ Status.MI_OK then
        some { status := r1.status, uid := uid, spi := r1.spi }
      else
        let sendBuf := [u8 h.PICC_SEL_CL1, u8 (2 <<< h.ANTICOLL_BUF_B2_VALID_BYTES_IN_BUFFER_BIT)]
        let recvBuf : Buffer := r1.spi.indeterminate
        let recvSizeBefore := 5
        match rfid_transceive h fuel sendBuf 2 (some recvBuf) (some 5) r1.spi with
        | none => none
        | some r2 =>
          if r2.status ≠ Status.MI_OK ∨ r2.recvLen.getD 0 < recvSizeBefore then
            some { status := Status.MI_ERR, uid := uid, spi := r2.spi }
          else
            some { status := r2.status
                   uid := fold_uid (r2.recvBuf.getD recvBuf) (List.range recvSizeBefore) 0
                   spi := r2.spi }

/-! ## One pass of the polling loop (rfid_handler.c:55-79) -/

/-- Values one pass of the loop body reads from its collaborators: the joystick reading
of line 69 and what `addTag` reads. -/
structure PassEnv where
  joystick : JoystickInput
  addTag_env : AddTagEnv

/-- Body of `while (!cancel_thread)` in `rfid_handler_start`, on the pair of bus state
and handler state. `fuel` bounds each poll loop and the busy-wait. -/
def rfid_handler_pass (h : RfidHeader) (env : PassEnv) (fuel : Nat)
    (sys : SpiState × HandlerState) : Option (SpiState × HandlerState) :=
  match rfid_get_uid h fuel 0 sys.1 with
  | none => none
  | some r =>
    let uid := r.uid
    let uid_shift := (uid >>> 8) % 2 ^ 32
    let after : Option HandlerState :=
      if uid ≠ 0 then
        addTag env.addTag_env fuel sys.2 uid_shift
          (if env.joystick = JoystickInput.LEFT then 1 else 0)
      else some sys.2
    match after with
    | none => none
    | some hs => some (r.spi, emit hs [Event.sleep_for_ms 1000])

/-- Source: `static void* rfid_handler_start()`, the loop `while (!cancel_thread)` from
its `n`-th pass on; `envs n` is what pass `n` reads from the collaborators. The result
is the number of passes started before the loop was left, which is the number of
`rfid_get_uid` calls made, and the final state; it is `none` when `passes` passes were
not enough to leave the loop or a pass did not finish. -/
def rfid_handler_start (h : RfidHeader) (envs : Nat → PassEnv) (fuel : Nat) :
    Nat → Nat → SpiState × HandlerState → Option (Nat × (SpiState × HandlerState))
  | 0, _, _ => none
  | passes + 1, n, sys =>
    if sys.2.cancel_thread = true then some (n, sys)
    else
      match rfid_handler_pass h (envs n) fuel sys with
      | none => none
      | some sys1 => rfid_handler_start h envs fuel passes (n + 1) sys1

/-! ## Specification vocabulary for the registry -/

/-- No two of the first `num_tags` slots carry the same uid. -/
def unique_uids (s : HandlerState) : Prop :=
  ∀ i j : Nat, (i : Int) < s.num_tags → (j : Int) < s.num_tags →
    (s.tags i).uid = (s.tags j).uid → i = j

/-- A call of one of the two mutators of the registry, with the values the call reads
from its collaborators. -/
inductive Call where
  | addTag (env : AddTagEnv) (fuel : Nat) (uid : Nat) (permission : Int)
  | removeTag (now : Int) (uid : Nat)

/-- Run a finite sequence of calls, in order; `none` when a busy-wait inside one of
them did not finish. -/
def run_calls : List Call → HandlerState → Option HandlerState
  | [], s => some s
  | Call.addTag env fuel uid permission :: rest, s =>
    match addTag env fuel s uid permission with
    | none => none
    | some s1 => run_calls rest s1
  | Call.removeTag now uid :: rest, s => run_calls rest (removeTag now s uid)

/-- Number of `servo_set_position_deg(DOOR_OPEN)` calls in a trace. -/
def door_open_commands (t : List Event) : Nat :=
  t.count (Event.servo_set_position_deg DoorPosition.DOOR_OPEN)

/-- Number of `servo_set_position_deg` calls in a trace, to any position. -/
def servo_commands (t : List Event) : Nat :=
  (t.filter (fun e => match e with
    | Event.servo_set_position_deg _ => true
    | _ => false)).length

/-! ## Concrete inputs -/

/-- A call environment: clock 100, door reported closed, countdown readings 3, 2, 1, 0,
joystick at rest. -/
def example_env : AddTagEnv :=
  { now := 100
    door_position := DoorPosition.DOOR_CLOSED
    display := fun n => 3 - (n : Int)
    joystick := fun _ => JoystickInput.NEUTRAL }

/-- The same environment with the clock at 200. -/
def later_env : AddTagEnv :=
  { example_env with now := 200 }

/-- The registry after one enrolment of uid `0x1234ABCD` with permission granted at
time 100. -/
def enrolled_state : HandlerState :=
  { tags := store initial_state.tags 0 { uid := 0x1234ABCD, allowed := true, last_seen := 100 }
    num_tags := 1
    cancel_thread := false
    trace := [Event.enqueueLog (LogMsg.NEW_TAG 100 0x1234ABCD true)] }

/-- Enrol `0x1234ABCD` (granted), enrol `7` (denied), present `0x1234ABCD` again, remove
`7`. -/
def example_calls : List Call :=
  [ Call.addTag example_env 10 0x1234ABCD 1
  , Call.addTag example_env 10 7 0
  , Call.addTag later_env 10 0x1234ABCD 1
  , Call.removeTag 230 7 ]

/-- The state `example_calls` leads to from `initial_state`. -/
def example_final : HandlerState :=
  { tags := store (store initial_state.tags 0 { uid := 0x1234ABCD, allowed := true, last_seen := 100 })
      1 { uid := 7, allowed := false, last_seen := 100 }
    num_tags := 1
    cancel_thread := false
    trace :=
      [ Event.enqueueLog (LogMsg.NEW_TAG 100 0x1234ABCD true)
      , Event.enqueueLog (LogMsg.NEW_TAG 100 7 false)
      , Event.enqueueLog (LogMsg.KNOWN_TAG 200 0x1234ABCD true)
      , Event.servo_set_position_deg DoorPosition.DOOR_OPEN
      , Event.sleep_for_ms 5000
      , Event.servo_set_position_deg DoorPosition.DOOR_CLOSED
      , Event.servo_set_position_deg DoorPosition.DOOR_OPEN
      , Event.door_handler_set_position DoorPosition.DOOR_OPEN
      , Event.display_handler_update_value 5000
      , Event.servo_set_position_deg DoorPosition.DOOR_CLOSED
      , Event.door_handler_set_position DoorPosition.DOOR_CLOSED
      , Event.enqueueLog (LogMsg.TAG_REMOVED 230 7) ] }

/-- A full registry: slot `i` holds uid `i`, for the 256 slots. -/
def full_state : HandlerState :=
  { tags := fun i => { uid := i, allowed := false, last_seen := 0 }
    num_tags := 256
    cancel_thread := false
    trace := [] }

/-- A registry of three tags with uids 10, 20, 30. -/
def three_tags : HandlerState :=
  { tags := fun i => { uid := 10 * (i + 1), allowed := true, last_seen := 0 }
    num_tags := 3
    cancel_thread := false
    trace := [] }

/-- Enrol `0x1234ABCD`, then remove it again. -/
def removed_calls : List Call :=
  [ Call.addTag example_env 10 0x1234ABCD 1
  , Call.removeTag 130 0x1234ABCD ]

/-- The state after `0x1234ABCD`, already enrolled, is presented again with
permission granted at time 200: the trace has grown by the door sequence. -/
def known_result : HandlerState :=
  emit enrolled_state
    [ Event.enqueueLog (LogMsg.KNOWN_TAG 200 0x1234ABCD true)
    , Event.servo_set_position_deg DoorPosition.DOOR_OPEN
    , Event.sleep_for_ms 5000
    , Event.servo_set_position_deg DoorPosition.DOOR_CLOSED
    , Event.servo_set_position_deg DoorPosition.DOOR_OPEN
    , Event.door_handler_set_position DoorPosition.DOOR_OPEN
    , Event.display_handler_update_value 5000
    , Event.servo_set_position_deg DoorPosition.DOOR_CLOSED
    , Event.door_handler_set_position DoorPosition.DOOR_CLOSED ]

/-! ## Specification vocabulary for the transceive engine -/

/-- Bus state after `n` consecutive calls `rfid_read(addr)`. -/
def after_reads (addr : Nat) : Nat → SpiState → SpiState
  | 0, s => s
  | n + 1, s => after_reads addr n (rfid_read addr s).2

/-- Value returned by the `j`-th (counted from 0) of the successive
`rfid_read(ComIrqReg)` calls of a poll loop entered in bus state `s`. -/
def irq_read (h : RfidHeader) (s : SpiState) (j : Nat) : Nat :=
  (rfid_read h.ComIrqReg (after_reads h.ComIrqReg j s)).1

/-- The receive-complete or the idle interrupt bit is set in the value `v`. -/
def rx_or_idle_set (h : RfidHeader) (v : Nat) : Prop :=
  v &&& h.COMIRQREG_RXIRQ_MASK ≠ 0 ∨ v &&& h.COMIRQREG_IDLEIRQ_MASK ≠ 0

/-- The timer interrupt bit is set in the value `v`. -/
def timer_set (h : RfidHeader) (v : Nat) : Prop :=
  v &&& h.COMIRQREG_TIMERIRQ_MASK ≠ 0

instance (h : RfidHeader) (v : Nat) : Decidable (rx_or_idle_set h v) := by
  unfold rx_or_idle_set
  infer_instance

instance (h : RfidHeader) (v : Nat) : Decidable (timer_set h v) := by
  unfold timer_set
  infer_instance

/-- A bus on which every byte clocked in is zero: no interrupt bit ever shows. -/
def quiet_bus : SpiState :=
  { spi_device_opened := true
    spiFileDesc := 3
    rx := fun _ _ => 0
    log := []
    indeterminate := fun _ => 0 }

/-- A bus that shows the timer interrupt (0x01) in transfer 10 and the receive
interrupt (0x20) in transfer 12, and zero elsewhere. After the seven transfers of
`transceive_start` these are the reads 3 and 5 of the poll loop. -/
def timer_first_bus : SpiState :=
  { spi_device_opened := true
    spiFileDesc := 3
    rx := fun k _ => if k = 10 then 0x01 else if k = 12 then 0x20 else 0
    log := []
    indeterminate := fun _ => 0 }

/-- A bus with a card of uid bytes 12 34 AB CD and block-check byte 40 in the field:
every register read returns 0x20 (receive interrupt), except that transfer 22, the
read of `FIFOLevelReg` of the anti-collision exchange, returns 5, and transfer 23, the
FIFO read, returns the five bytes after the address echo. -/
def card_bus : SpiState :=
  { spi_device_opened := true
    spiFileDesc := 3
    rx := fun k j =>
      if k = 23 then [0x00, 0x12, 0x34, 0xAB, 0xCD, 0x40].getD j 0
      else if k = 22 then 5
      else 0x20
    log := []
    indeterminate := fun _ => 0 }

/-- A pass environment: joystick held LEFT at the enrolment test. -/
def left_env : PassEnv :=
  { joystick := JoystickInput.LEFT
    addTag_env := example_env }

/-- A bus on which every register read returns 0x20 (receive interrupt), except that
transfer 22, the read of `FIFOLevelReg` of the anti-collision exchange, returns 3: the
card answers with three bytes only. -/
def short_bus : SpiState :=
  { spi_device_opened := true
    spiFileDesc := 3
    rx := fun k _ => if k = 22 then 3 else 0x20
    log := []
    indeterminate := fun _ => 0 }

/-- Specification counterpart of `rfid_handler_pass` for the refinement claim: the
guard of the enrolment is the one of the polling loop in spec section 4.6,
`status == Ok and uid != 0`; everything else is as in the source. -/
def rfid_handler_pass_spec (h : RfidHeader) (env : PassEnv) (fuel : Nat)
    (sys : SpiState × HandlerState) : Option (SpiState × HandlerState) :=
  match rfid_get_uid h fuel 0 sys.1 with
  | none => none
  | some r =>
    let uid := r.uid
    let uid_shift := (uid >>> 8) % 2 ^ 32
    let after : Option HandlerState :=
      if r.status = Status.MI_OK ∧ uid ≠ 0 then
        addTag env.addTag_env fuel sys.2 uid_shift
          (if env.joystick = JoystickInput.LEFT then 1 else 0)
      else some sys.2
    match after with
    | none => none
    | some hs => some (r.spi, emit hs [Event.sleep_for_ms 1000])

/-- The five bytes a card with uid 12 34 AB CD answers in anti-collision: the uid and
its block-check byte 40. -/
def card_bytes : Buffer :=
  fun i => [0x12, 0x34, 0xAB, 0xCD, 0x40].getD i 0

/-- A pass environment for a cancelled countdown: joystick LEFT at the enrolment test,
door reported closed, countdown readings 5000, 4999, ..., and the joystick reading
RIGHT in the third pass of the busy-wait. -/
def cancel_env : PassEnv :=
  { joystick := JoystickInput.LEFT
    addTag_env :=
      { now := 300
        door_position := DoorPosition.DOOR_CLOSED
        display := fun n => 5000 - (n : Int)
        joystick := fun n => if n = 2 then JoystickInput.RIGHT else JoystickInput.NEUTRAL } }

/-- The data bytes of the writes to `CommandReg` found in a bus log, oldest first: a
register write is a two-byte transfer, and it addresses `CommandReg` when its first
byte is the address byte `rfid_write` sends for `CommandReg`. -/
def command_writes (h : RfidHeader) (log : List (List Nat)) : List Nat :=
  log.filterMap (fun frame =>
    match frame with
    | [a, d] => if a = u8 (u8 h.CommandReg <<< 1) then some d else none
    | _ => none)

/-- The read of `FIFOLevelReg` of rfid.c:278, made after the two writes of
rfid.c:274-275, when the poll loop was left in bus state `sp`: the value read and the
bus state after it. -/
def level_read (h : RfidHeader) (sp : SpiState) : Nat × SpiState :=
  rfid_read h.FIFOLevelReg (rfid_write h.CommandReg h.Idle (rfid_write h.BitFramingReg 0x00 sp))

/-- A bus on which every register read returns 0x20 (receive interrupt), except that
transfer 10 returns 3. In one exchange started on the fresh bus, transfer 7 is the first
read of the poll loop, transfer 10 the read of `FIFOLevelReg` and transfer 11 the FIFO
read: the FIFO level is 3. -/
def level_three_bus : SpiState :=
  { spi_device_opened := true
    spiFileDesc := 3
    rx := fun k _ => if k = 10 then 3 else 0x20
    log := []
    indeterminate := fun _ => 0 }

/-! ## Lemmas on the registry loops -/

theorem mem_indices (n : Int) (i : Nat) : i ∈ indices n ↔ (i : Int) < n := by
  unfold indices
  rw [List.mem_range]
  omega

theorem tagExists_loop_iff (tags : Nat → rfid_tag) (uid : Nat) (l : List Nat) :
    tagExists_loop tags uid l = true ↔ ∃ i, i ∈ l ∧ (tags i).uid = uid := by
  induction l with
  | nil => simp [tagExists_loop]
  | cons a l ih =>
    unfold tagExists_loop
    by_cases ha : (tags a).uid = uid
    · simp only [ha, if_true, true_iff]
      exact ⟨a, List.mem_cons_self a l, ha⟩
    · simp only [ha, if_false, ih]
      constructor
      · rintro ⟨i, hi, h⟩
        exact ⟨i, List.mem_cons_of_mem a hi, h⟩
      · rintro ⟨i, hi, h⟩
        rcases List.mem_cons.mp hi with rfl | hi
        · exact absurd h ha
        · exact ⟨i, hi, h⟩

theorem tagExists_iff (s : HandlerState) (uid : Nat) :
    tagExists s uid = true ↔ ∃ i : Nat, (i : Int) < s.num_tags ∧ (s.tags i).uid = uid := by
  unfold tagExists
  rw [tagExists_loop_iff]
  simp only [mem_indices]

theorem tagExists_eq_false_iff (s : HandlerState) (uid : Nat) :
    tagExists s uid = false ↔ ∀ i : Nat, (i : Int) < s.num_tags → (s.tags i).uid ≠ uid := by
  rw [← Bool.not_eq_true, tagExists_iff]
  push_neg
  rfl

theorem getTag_loop_none (tags : Nat → rfid_tag) (uid : Nat) (l : List Nat)
    (h : ∀ i, i ∈ l → (tags i).uid ≠ uid) : getTag_loop tags uid l = none := by
  induction l with
  | nil => rfl
  | cons a l ih =>
    unfold getTag_loop
    rw [if_neg (h a (List.mem_cons_self a l))]
    exact ih (fun i hi => h i (List.mem_cons_of_mem a hi))

theorem getTag_loop_some (tags : Nat → rfid_tag) (uid : Nat) (l : List Nat)
    (h : ∃ i, i ∈ l ∧ (tags i).uid = uid) :
    ∃ k, k ∈ l ∧ (tags k).uid = uid ∧ getTag_loop tags uid l = some (tags k) := by
  induction l with
  | nil =>
    rcases h with ⟨i, hi, _⟩
    exact absurd hi (List.not_mem_nil i)
  | cons a l ih =>
    unfold getTag_loop
    by_cases ha : (tags a).uid = uid
    · exact ⟨a, List.mem_cons_self a l, ha, by rw [if_pos ha]⟩
    · rw [if_neg ha]
      have h2 : ∃ i, i ∈ l ∧ (tags i).uid = uid := by
        rcases h with ⟨i, hi, hu⟩
        rcases List.mem_cons.mp hi with rfl | hi
        · exact absurd hu ha
        · exact ⟨i, hi, hu⟩
      rcases ih h2 with ⟨k, hk, hu, hg⟩
      exact ⟨k, List.mem_cons_of_mem a hk, hu, hg⟩

/-- State of the `for` loop of `removeTag` after the indices below `m`. -/
theorem removeTag_fold_spec (tags : Nat → rfid_tag) (uid : Nat) (N : Int) (m : Nat) :
    (((List.range m).foldl (removeTag_body uid N) (tags, false)).2 = true ↔
        ∃ k, k < m ∧ (tags k).uid = uid) ∧
    (∀ j, (j < m ∧ (j : Int) < N - 1 ∧ ∃ k, k ≤ j ∧ (tags k).uid = uid) →
        ((List.range m).foldl (removeTag_body uid N) (tags, false)).1 j = tags (j + 1)) ∧
    (∀ j, ¬ (j < m ∧ (j : Int) < N - 1 ∧ ∃ k, k ≤ j ∧ (tags k).uid = uid) →
        ((List.range m).foldl (removeTag_body uid N) (tags, false)).1 j = tags j) := by
  induction m with
  | zero =>
    refine ⟨?_, ?_, ?_⟩
    · simp
    · rintro j ⟨hj, _⟩
      exact absurd hj (Nat.not_lt_zero j)
    · intro j _
      rfl
  | succ m ih =>
    rw [List.range_succ, List.foldl_append]
    simp only [List.foldl_cons, List.foldl_nil]
    generalize (List.range m).foldl (removeTag_body uid N) (tags, false) = st at ih ⊢
    obtain ⟨ihf, ihs, ihk⟩ := ih
    have hm : st.1 m = tags m := ihk m (fun h => Nat.lt_irrefl m h.1)
    have hm1 : st.1 (m + 1) = tags (m + 1) := ihk (m + 1) (fun h => by omega)
    have hfound : ((if (st.1 m).uid = uid then true else st.2) = true) ↔
        ∃ k, k < m + 1 ∧ (tags k).uid = uid := by
      rw [hm]
      by_cases hu : (tags m).uid = uid
      · simp only [hu, if_true, true_iff]
        exact ⟨m, Nat.lt_succ_self m, hu⟩
      · simp only [hu, if_false, ihf]
        constructor
        · rintro ⟨k, hk, h⟩
          exact ⟨k, Nat.lt_succ_of_lt hk, h⟩
        · rintro ⟨k, hk, h⟩
          rcases Nat.lt_succ_iff_lt_or_eq.mp hk with hk | rfl
          · exact ⟨k, hk, h⟩
          · exact absurd h hu
    unfold removeTag_body
    simp only []
    by_cases hc : (if (st.1 m).uid = uid then true else st.2) = true ∧ (m : Int) < N - 1
    · rw [if_pos hc]
      refine ⟨hfound, ?_, ?_⟩
      · rintro j ⟨hj, hjN, k, hk, hu⟩
        simp only [store]
        by_cases hjm : j = m
        · rw [if_pos hjm, hjm, hm1]
        · rw [if_neg hjm]
          exact ihs j ⟨by omega, hjN, k, hk, hu⟩
      · intro j hj
        simp only [store]
        by_cases hjm : j = m
        · exfalso
          apply hj
          subst hjm
          obtain ⟨k, hk, hu⟩ := hfound.mp hc.1
          exact ⟨Nat.lt_succ_self j, hc.2, k, Nat.lt_succ_iff.mp hk, hu⟩
        · rw [if_neg hjm]
          apply ihk
          rintro ⟨h1, h2, h3⟩
          exact hj ⟨Nat.lt_succ_of_lt h1, h2, h3⟩
    · rw [if_neg hc]
      refine ⟨hfound, ?_, ?_⟩
      · rintro j ⟨hj, hjN, k, hk, hu⟩
        by_cases hjm : j = m
        · exfalso
          apply hc
          subst hjm
          exact ⟨hfound.mpr ⟨k, Nat.lt_succ_of_le hk, hu⟩, hjN⟩
        · exact ihs j ⟨by omega, hjN, k, hk, hu⟩
      · intro j hj
        by_cases hjm : j = m
        · rw [hjm, hm]
        · apply ihk
          rintro ⟨h1, h2, h3⟩
          exact hj ⟨Nat.lt_succ_of_lt h1, h2, h3⟩

theorem removeTag_loop_found (s : HandlerState) (uid : Nat) :
    (removeTag_loop s uid).2 = true ↔ tagExists s uid = true := by
  unfold removeTag_loop indices
  rw [(removeTag_fold_spec s.tags uid s.num_tags s.num_tags.toNat).1, tagExists_iff]
  constructor
  · rintro ⟨k, hk, hu⟩
    exact ⟨k, by omega, hu⟩
  · rintro ⟨k, hk, hu⟩
    exact ⟨k, by omega, hu⟩

/-- When `uid` is absent the loop of `removeTag` stores nothing. -/
theorem removeTag_loop_absent (s : HandlerState) (uid : Nat) (h : tagExists s uid = false) :
    (removeTag_loop s uid).1 = s.tags := by
  funext j
  unfold removeTag_loop indices
  apply (removeTag_fold_spec s.tags uid s.num_tags s.num_tags.toNat).2.2
  rintro ⟨hj, _, k, hk, hu⟩
  exact (tagExists_eq_false_iff s uid).mp h k (by omega) hu

theorem removeTag_absent (now : Int) (s : HandlerState) (uid : Nat)
    (h : tagExists s uid = false) : removeTag now s uid = s := by
  have hf : ¬ (removeTag_loop s uid).2 = true := by
    rw [removeTag_loop_found, h]
    exact Bool.false_ne_true
  unfold removeTag
  simp only []
  rw [if_neg hf, removeTag_loop_absent s uid h]

/-- When `k` is the first index holding `uid`, `removeTag` moves the slots after `k`
down by one, leaves the other slots alone and decrements `num_tags`. -/
theorem removeTag_first (now : Int) (s : HandlerState) (uid : Nat) (k : Nat)
    (hk : (k : Int) < s.num_tags) (hu : (s.tags k).uid = uid)
    (hfirst : ∀ i, i < k → (s.tags i).uid ≠ uid) :
    (removeTag now s uid).num_tags = s.num_tags - 1 ∧
    (∀ j, j < k → (removeTag now s uid).tags j = s.tags j) ∧
    (∀ j, k ≤ j → (j : Int) < s.num_tags - 1 → (removeTag now s uid).tags j = s.tags (j + 1)) ∧
    (∀ j : Nat, s.num_tags - 1 ≤ (j : Int) → (removeTag now s uid).tags j = s.tags j) := by
  have hf : (removeTag_loop s uid).2 = true := by
    rw [removeTag_loop_found, tagExists_iff]
    exact ⟨k, hk, hu⟩
  have hspec := removeTag_fold_spec s.tags uid s.num_tags s.num_tags.toNat
  have htags : (removeTag now s uid).tags = (removeTag_loop s uid).1 := by
    unfold removeTag
    simp only [hf, if_true]
  refine ⟨?_, ?_, ?_, ?_⟩
  · unfold removeTag
    simp only [hf, if_true]
  · intro j hj
    rw [htags]
    unfold removeTag_loop indices
    apply hspec.2.2
    rintro ⟨_, _, k2, hk2, hu2⟩
    exact hfirst k2 (by omega) hu2
  · intro j hkj hj
    rw [htags]
    unfold removeTag_loop indices
    apply hspec.2.1
    exact ⟨by omega, hj, k, hkj, hu⟩
  · intro j hj
    rw [htags]
    unfold removeTag_loop indices
    apply hspec.2.2
    rintro ⟨_, h2, _⟩
    omega

/-- In a registry with unique uids the index holding `uid` is the first one. -/
theorem unique_first (s : HandlerState) (hs : unique_uids s) (uid : Nat) (k : Nat)
    (hk : (k : Int) < s.num_tags) (hu : (s.tags k).uid = uid) :
    ∀ i, i < k → (s.tags i).uid ≠ uid := by
  intro i hi h
  have := hs i k (by omega) hk (by rw [h, hu])
  omega

theorem removeTag_unique (now : Int) (s : HandlerState) (uid : Nat) (hs : unique_uids s) :
    unique_uids (removeTag now s uid) := by
  cases hex : tagExists s uid with
  | false =>
    rw [removeTag_absent now s uid hex]
    exact hs
  | true =>
    obtain ⟨k0, hk0, hu0⟩ := (tagExists_iff s uid).mp hex
    obtain ⟨hn, hlo, hhi, _⟩ :=
      removeTag_first now s uid k0 hk0 hu0 (unique_first s hs uid k0 hk0 hu0)
    intro i j hi hj hij
    rw [hn] at hi hj
    by_cases hik : i < k0 <;> by_cases hjk : j < k0
    · rw [hlo i hik, hlo j hjk] at hij
      exact hs i j (by omega) (by omega) hij
    · rw [hlo i hik, hhi j (by omega) hj] at hij
      have := hs i (j + 1) (by omega) (by omega) hij
      omega
    · rw [hhi i (by omega) hi, hlo j hjk] at hij
      have := hs (i + 1) j (by omega) (by omega) hij
      omega
    · rw [hhi i (by omega) hi, hhi j (by omega) hj] at hij
      have := hs (i + 1) (j + 1) (by omega) (by omega) hij
      omega

theorem removeTag_num_tags (now : Int) (s : HandlerState) (uid : Nat) :
    (removeTag now s uid).num_tags =
      if tagExists s uid = true then s.num_tags - 1 else s.num_tags := by
  unfold removeTag
  simp only []
  by_cases hf : (removeTag_loop s uid).2 = true
  · rw [if_pos hf, if_pos ((removeTag_loop_found s uid).mp hf)]
  · have : ¬ tagExists s uid = true := fun h => hf ((removeTag_loop_found s uid).mpr h)
    rw [if_neg hf, if_neg this]

/-- The known-uid branch of `addTag` writes neither `tags` nor `num_tags`. -/
theorem addTag_known_registry (env : AddTagEnv) (fuel : Nat) (s s1 : HandlerState) (uid : Nat)
    (permission : Int) (hex : tagExists s uid = true)
    (h : addTag env fuel s uid permission = some s1) :
    s1.tags = s.tags ∧ s1.num_tags = s.num_tags := by
  unfold addTag at h
  simp only [hex, if_true] at h
  split at h
  · split at h
    · split at h
      · exact absurd h (by simp)
      · rename_i cancelled _
        injection h with h
        subst h
        cases cancelled <;> simp [emit]
    · injection h with h
      subst h
      simp [emit]
  · injection h with h
    subst h
    simp [emit]

/-- The new-uid branch of `addTag` with room left: append. -/
theorem addTag_new (env : AddTagEnv) (fuel : Nat) (s : HandlerState) (uid : Nat)
    (permission : Int) (hex : tagExists s uid = false) (hroom : s.num_tags < MAXIMUM_RFID_TAGS) :
    addTag env fuel s uid permission =
      some { tags := store s.tags s.num_tags.toNat
                      { uid := uid, allowed := decide (permission ≠ 0), last_seen := env.now }
             num_tags := s.num_tags + 1
             cancel_thread := s.cancel_thread
             trace := s.trace ++ [Event.enqueueLog
                        (LogMsg.NEW_TAG env.now uid (decide (permission ≠ 0)))] } := by
  unfold addTag
  simp only [hex, hroom, if_true, emit]
  simp

/-- The new-uid branch of `addTag` with a full array: nothing happens. -/
theorem addTag_full (env : AddTagEnv) (fuel : Nat) (s : HandlerState) (uid : Nat)
    (permission : Int) (hex : tagExists s uid = false)
    (hfull : ¬ s.num_tags < MAXIMUM_RFID_TAGS) :
    addTag env fuel s uid permission = some s := by
  unfold addTag
  simp only [hex, hfull, if_false]
  simp

/-- The two parts of the registry invariant together. -/
theorem addTag_invariant (env : AddTagEnv) (fuel : Nat) (s s1 : HandlerState) (uid : Nat)
    (permission : Int) (h : addTag env fuel s uid permission = some s1)
    (hs : unique_uids s) (h0 : 0 ≤ s.num_tags) (hmax : s.num_tags ≤ MAXIMUM_RFID_TAGS) :
    unique_uids s1 ∧ 0 ≤ s1.num_tags ∧ s1.num_tags ≤ MAXIMUM_RFID_TAGS := by
  cases hex : tagExists s uid with
  | true =>
    obtain ⟨ht, hn⟩ := addTag_known_registry env fuel s s1 uid permission hex h
    refine ⟨?_, by rw [hn]; exact h0, by rw [hn]; exact hmax⟩
    intro i j hi hj hij
    rw [hn] at hi hj
    rw [ht] at hij
    exact hs i j hi hj hij
  | false =>
    by_cases hroom : s.num_tags < MAXIMUM_RFID_TAGS
    · rw [addTag_new env fuel s uid permission hex hroom] at h
      injection h with h
      subst h
      have habs := (tagExists_eq_false_iff s uid).mp hex
      refine ⟨?_, by simp only; omega, by simp only; omega⟩
      intro i j hi hj hij
      simp only at hi hj hij
      simp only [store] at hij
      by_cases hin : i = s.num_tags.toNat <;> by_cases hjn : j = s.num_tags.toNat
      · rw [hin, hjn]
      · rw [if_pos hin, if_neg hjn] at hij
        exact absurd hij.symm (habs j (by omega))
      · rw [if_neg hin, if_pos hjn] at hij
        exact absurd hij (habs i (by omega))
      · rw [if_neg hin, if_neg hjn] at hij
        exact hs i j (by omega) (by omega) hij
    · rw [addTag_full env fuel s uid permission hex hroom] at h
      injection h with h
      subst h
      exact ⟨hs, h0, hmax⟩

theorem removeTag_invariant (now : Int) (s : HandlerState) (uid : Nat)
    (hs : unique_uids s) (h0 : 0 ≤ s.num_tags) (hmax : s.num_tags ≤ MAXIMUM_RFID_TAGS) :
    unique_uids (removeTag now s uid) ∧ 0 ≤ (removeTag now s uid).num_tags ∧
      (removeTag now s uid).num_tags ≤ MAXIMUM_RFID_TAGS := by
  refine ⟨removeTag_unique now s uid hs, ?_, ?_⟩
  · rw [removeTag_num_tags]
    by_cases hex : tagExists s uid = true
    · rw [if_pos hex]
      obtain ⟨k, hk, _⟩ := (tagExists_iff s uid).mp hex
      omega
    · rw [if_neg hex]
      exact h0
  · rw [removeTag_num_tags]
    split <;> omega

theorem run_calls_invariant (calls : List Call) :
    ∀ s s1 : HandlerState, run_calls calls s = some s1 →
      unique_uids s → 0 ≤ s.num_tags → s.num_tags ≤ MAXIMUM_RFID_TAGS →
      unique_uids s1 ∧ 0 ≤ s1.num_tags ∧ s1.num_tags ≤ MAXIMUM_RFID_TAGS := by
  induction calls with
  | nil =>
    intro s s1 h hs h0 hmax
    simp only [run_calls] at h
    injection h with h
    subst h
    exact ⟨hs, h0, hmax⟩
  | cons c rest ih =>
    intro s s1 h hs h0 hmax
    cases c with
    | addTag env fuel uid permission =>
      simp only [run_calls] at h
      cases ha : addTag env fuel s uid permission with
      | none =>
        rw [ha] at h
        exact absurd h (by simp)
      | some s2 =>
        rw [ha] at h
        obtain ⟨a, b, c⟩ := addTag_invariant env fuel s s2 uid permission ha hs h0 hmax
        exact ih s2 s1 h a b c
    | removeTag now uid =>
      simp only [run_calls] at h
      obtain ⟨a, b, c⟩ := removeTag_invariant now s uid hs h0 hmax
      exact ih _ s1 h a b c

/-! ## Claims on the tag registry -/

/-- C1: starting from the empty registry, after every finite sequence of `addTag` and
`removeTag` calls with arbitrary uids and permissions, no two of the first `num_tags`
slots carry the same uid, and `0 ≤ num_tags ≤ 256`. -/
theorem C1_registry_invariant (calls : List Call) (s : HandlerState)
    (h : run_calls calls initial_state = some s) :
    (∀ i j : Nat, (i : Int) < s.num_tags → (j : Int) < s.num_tags →
        (s.tags i).uid = (s.tags j).uid → i = j) ∧
    0 ≤ s.num_tags ∧ s.num_tags ≤ 256 := by
  have hinit : unique_uids initial_state := by
    intro i j hi _ _
    simp only [initial_state] at hi
    omega
  exact run_calls_invariant calls initial_state s h hinit (by decide) (by decide)

theorem C1_registry_invariant_witness :
    run_calls example_calls initial_state = some example_final ∧
    ((∀ i j : Nat, (i : Int) < example_final.num_tags → (j : Int) < example_final.num_tags →
        (example_final.tags i).uid = (example_final.tags j).uid → i = j) ∧
      0 ≤ example_final.num_tags ∧ example_final.num_tags ≤ 256) :=
  ⟨rfl, C1_registry_invariant example_calls example_final rfl⟩

/-- C2 (evaluation at the failing input): a registry holding `0x1234ABCD` with
`allowed = true`, `last_seen = 100` receives `addTag(0x1234ABCD, 0)` at time 200. The
call logs the copy (`allowed = false`, time 200) and returns with `tags` as before: the
stored tag, and the tag `getTag` returns afterwards, still has `allowed = true` and
`last_seen = 100`. -/
theorem C2_known_tag_update_is_lost :
    addTag later_env 10 enrolled_state 0x1234ABCD 0 =
      some (emit enrolled_state [Event.enqueueLog (LogMsg.KNOWN_TAG 200 0x1234ABCD false)]) ∧
    getTag (emit enrolled_state [Event.enqueueLog (LogMsg.KNOWN_TAG 200 0x1234ABCD false)])
        0x1234ABCD = { uid := 0x1234ABCD, allowed := true, last_seen := 100 } :=
  ⟨rfl, rfl⟩

/-- C4: for every registry with `num_tags = 256` and every uid not present in it,
`addTag(uid, p)` returns with the whole state as it was: `num_tags`, every slot and the
trace of collaborator calls (so no door sequence is run). -/
theorem C4_full_registry_unchanged (env : AddTagEnv) (fuel : Nat) (s : HandlerState)
    (uid : Nat) (permission : Int) (hfull : s.num_tags = 256)
    (habsent : tagExists s uid = false) :
    addTag env fuel s uid permission = some s := by
  apply addTag_full env fuel s uid permission habsent
  rw [hfull]
  decide

theorem full_state_absent : tagExists full_state 1000 = false := by
  rw [tagExists_eq_false_iff]
  intro i hi
  simp only [full_state] at hi ⊢
  omega

theorem C4_full_registry_unchanged_witness :
    full_state.num_tags = 256 ∧ tagExists full_state 1000 = false ∧
    addTag example_env 0 full_state 1000 1 = some full_state :=
  ⟨rfl, full_state_absent,
    C4_full_registry_unchanged example_env 0 full_state 1000 1 rfl full_state_absent⟩

theorem stored_length (s : HandlerState) : (stored s).length = s.num_tags.toNat := by
  simp [stored, indices]

theorem stored_getElem (s : HandlerState) (j : Nat) (hj : j < (stored s).length) :
    (stored s)[j] = s.tags j := by
  simp [stored, indices]

/-- C5: for every registry in which `uid` is present at index `k` and no other entry
carries `uid`, `removeTag(uid)` decrements `num_tags` by one, keeps the slots before
`k`, moves each later entry down by one, and so leaves as the stored sequence the old
one with entry `k` deleted. -/
theorem C5_removeTag_compacts (now : Int) (s : HandlerState) (uid : Nat) (k : Nat)
    (hk : (k : Int) < s.num_tags) (hu : (s.tags k).uid = uid)
    (honly : ∀ i : Nat, (i : Int) < s.num_tags → (s.tags i).uid = uid → i = k) :
    (removeTag now s uid).num_tags = s.num_tags - 1 ∧
    (∀ j : Nat, j < k → (removeTag now s uid).tags j = s.tags j) ∧
    (∀ j : Nat, k ≤ j → (j : Int) < s.num_tags - 1 →
      (removeTag now s uid).tags j = s.tags (j + 1)) ∧
    stored (removeTag now s uid) = (stored s).eraseIdx k := by
  have hfirst : ∀ i, i < k → (s.tags i).uid ≠ uid := by
    intro i hi h
    have := honly i (by omega) h
    omega
  obtain ⟨hn, hlo, hhi, _⟩ := removeTag_first now s uid k hk hu hfirst
  refine ⟨hn, hlo, hhi, ?_⟩
  have hklen : k < (stored s).length := by
    rw [stored_length]
    omega
  apply List.ext_getElem
  · rw [List.length_eraseIdx_of_lt hklen, stored_length, stored_length, hn]
    omega
  · intro j h1 h2
    rw [stored_getElem, List.getElem_eraseIdx]
    have hj : (j : Int) < s.num_tags - 1 := by
      rw [stored_length, hn] at h1
      omega
    by_cases hjk : j < k
    · rw [dif_pos hjk, stored_getElem]
      exact hlo j hjk
    · rw [dif_neg hjk, stored_getElem]
      exact hhi j (by omega) hj

theorem C5_removeTag_compacts_witness :
    ((1 : Nat) : Int) < three_tags.num_tags ∧ (three_tags.tags 1).uid = 20 ∧
    (∀ i : Nat, (i : Int) < three_tags.num_tags → (three_tags.tags i).uid = 20 → i = 1) ∧
    ((removeTag 0 three_tags 20).num_tags = three_tags.num_tags - 1 ∧
      (∀ j : Nat, j < 1 → (removeTag 0 three_tags 20).tags j = three_tags.tags j) ∧
      (∀ j : Nat, 1 ≤ j → (j : Int) < three_tags.num_tags - 1 →
        (removeTag 0 three_tags 20).tags j = three_tags.tags (j + 1)) ∧
      stored (removeTag 0 three_tags 20) = (stored three_tags).eraseIdx 1) :=
  have honly : ∀ i : Nat, (i : Int) < three_tags.num_tags → (three_tags.tags i).uid = 20 → i = 1 := by
    intro i _ h
    simp only [three_tags] at h
    omega
  ⟨by decide, rfl, honly, C5_removeTag_compacts 0 three_tags 20 1 (by decide) rfl honly⟩

/-- C6: for every registry holding at most one entry per uid and every uid, after
`removeTag(uid)` the lookup `tagExists(uid)` returns false. -/
theorem C6_removed_tag_not_found (now : Int) (s : HandlerState) (uid : Nat)
    (hs : ∀ i j : Nat, (i : Int) < s.num_tags → (j : Int) < s.num_tags →
      (s.tags i).uid = (s.tags j).uid → i = j) :
    tagExists (removeTag now s uid) uid = false := by
  cases hex : tagExists s uid with
  | false =>
    rw [removeTag_absent now s uid hex]
    exact hex
  | true =>
    obtain ⟨k, hk, hu⟩ := (tagExists_iff s uid).mp hex
    obtain ⟨hn, hlo, hhi, _⟩ := removeTag_first now s uid k hk hu (unique_first s hs uid k hk hu)
    rw [tagExists_eq_false_iff]
    intro j hj h
    rw [hn] at hj
    by_cases hjk : j < k
    · rw [hlo j hjk] at h
      have := hs j k (by omega) hk (by rw [h, hu])
      omega
    · rw [hhi j (by omega) hj] at h
      have := hs (j + 1) k (by omega) hk (by rw [h, hu])
      omega

theorem C6_removed_tag_not_found_witness :
    (∀ i j : Nat, (i : Int) < three_tags.num_tags → (j : Int) < three_tags.num_tags →
      (three_tags.tags i).uid = (three_tags.tags j).uid → i = j) ∧
    tagExists three_tags 20 = true ∧
    tagExists (removeTag 0 three_tags 20) 20 = false :=
  have hs : ∀ i j : Nat, (i : Int) < three_tags.num_tags → (j : Int) < three_tags.num_tags →
      (three_tags.tags i).uid = (three_tags.tags j).uid → i = j := by
    intro i j _ _ h
    simp only [three_tags] at h
    omega
  ⟨hs, by decide, C6_removed_tag_not_found 0 three_tags 20 hs⟩

/-- C7: for every registry and every uid that is not among its first `num_tags`
entries, `getTag(uid)` returns the content of slot 0, `tags[0]`; this includes the empty
registry. -/
theorem C7_getTag_miss_returns_slot_zero (s : HandlerState) (uid : Nat)
    (habsent : ∀ i : Nat, (i : Int) < s.num_tags → (s.tags i).uid ≠ uid) :
    getTag s uid = s.tags 0 := by
  unfold getTag
  rw [getTag_loop_none s.tags uid (indices s.num_tags)
    (fun i hi => habsent i ((mem_indices s.num_tags i).mp hi))]

theorem C7_getTag_miss_returns_slot_zero_witness :
    (∀ i : Nat, (i : Int) < three_tags.num_tags → (three_tags.tags i).uid ≠ 25) ∧
    getTag three_tags 25 = three_tags.tags 0 :=
  have habsent : ∀ i : Nat, (i : Int) < three_tags.num_tags → (three_tags.tags i).uid ≠ 25 := by
    intro i _ h
    simp only [three_tags] at h
    omega
  ⟨habsent, C7_getTag_miss_returns_slot_zero three_tags 25 habsent⟩

/-! ## Lemmas on the poll loop -/

theorem lor_eq_zero_iff (a b : Nat) : a ||| b = 0 ↔ a = 0 ∧ b = 0 := by
  constructor
  · intro h
    have hbit : ∀ i, a.testBit i = false ∧ b.testBit i = false := by
      intro i
      have := congrArg (fun x => Nat.testBit x i) h
      simpa using this
    exact ⟨Nat.eq_of_testBit_eq (fun i => by simp [(hbit i).1]),
      Nat.eq_of_testBit_eq (fun i => by simp [(hbit i).2])⟩
  · rintro ⟨rfl, rfl⟩
    rfl

theorem rx_or_idle_set_iff (h : RfidHeader) (v : Nat) :
    v &&& (h.COMIRQREG_RXIRQ_MASK ||| h.COMIRQREG_IDLEIRQ_MASK) ≠ 0 ↔ rx_or_idle_set h v := by
  unfold rx_or_idle_set
  rw [Nat.and_or_distrib_left, Ne, lor_eq_zero_iff]
  tauto

theorem irq_read_zero (h : RfidHeader) (s : SpiState) :
    irq_read h s 0 = (rfid_read h.ComIrqReg s).1 := rfl

theorem irq_read_succ (h : RfidHeader) (s : SpiState) (j : Nat) :
    irq_read h s (j + 1) = irq_read h (rfid_read h.ComIrqReg s).2 j := rfl

/-- One pass of the poll loop, by cases on the value read. -/
theorem poll_loop_step (h : RfidHeader) (fuel elapsed : Nat) (s : SpiState) :
    poll_loop h (fuel + 1) elapsed s =
      if rx_or_idle_set h (irq_read h s 0) then
        some (Status.MI_OK, (elapsed + poll_interval_us) % 2 ^ 32, (rfid_read h.ComIrqReg s).2)
      else if timer_set h (irq_read h s 0) then
        some (Status.MI_ERR, (elapsed + poll_interval_us) % 2 ^ 32, (rfid_read h.ComIrqReg s).2)
      else if (elapsed + poll_interval_us) % 2 ^ 32 ≥ timeout_us then
        some (Status.MI_TIMEOUT, (elapsed + poll_interval_us) % 2 ^ 32, (rfid_read h.ComIrqReg s).2)
      else
        poll_loop h fuel ((elapsed + poll_interval_us) % 2 ^ 32) (rfid_read h.ComIrqReg s).2 := by
  rw [irq_read_zero]
  conv_lhs => rw [poll_loop]
  simp only [rx_or_idle_set_iff, timer_set]

/-- The poll loop stops at the first read that shows an interrupt bit, if that read is
made before the time ceiling. -/
theorem poll_loop_first_event (h : RfidHeader) (k : Nat) :
    ∀ (fuel elapsed : Nat) (s : SpiState), k < fuel →
      elapsed + poll_interval_us * (k + 1) ≤ timeout_us →
      (∀ j, j < k → ¬ rx_or_idle_set h (irq_read h s j) ∧ ¬ timer_set h (irq_read h s j)) →
      (rx_or_idle_set h (irq_read h s k) →
        poll_loop h fuel elapsed s = some (Status.MI_OK, elapsed + poll_interval_us * (k + 1),
          after_reads h.ComIrqReg (k + 1) s)) ∧
      (¬ rx_or_idle_set h (irq_read h s k) → timer_set h (irq_read h s k) →
        poll_loop h fuel elapsed s = some (Status.MI_ERR, elapsed + poll_interval_us * (k + 1),
          after_reads h.ComIrqReg (k + 1) s)) := by
  induction k with
  | zero =>
    intro fuel elapsed s hfuel hceil _
    obtain ⟨f, rfl⟩ : ∃ f, fuel = f + 1 := ⟨fuel - 1, by omega⟩
    have hmod : (elapsed + poll_interval_us) % 2 ^ 32 = elapsed + poll_interval_us * (0 + 1) := by
      simp only [poll_interval_us, timeout_us] at hceil ⊢
      omega
    rw [poll_loop_step, hmod]
    constructor
    · intro hv
      rw [if_pos hv]
      rfl
    · intro hv ht
      rw [if_neg hv, if_pos ht]
      rfl
  | succ k ih =>
    intro fuel elapsed s hfuel hceil hquiet
    obtain ⟨f, rfl⟩ : ∃ f, fuel = f + 1 := ⟨fuel - 1, by omega⟩
    have hmod : (elapsed + poll_interval_us) % 2 ^ 32 = elapsed + poll_interval_us := by
      simp only [poll_interval_us, timeout_us] at hceil ⊢
      omega
    have hlt : ¬ (elapsed + poll_interval_us ≥ timeout_us) := by
      simp only [poll_interval_us, timeout_us] at hceil ⊢
      omega
    have h0 := hquiet 0 (Nat.succ_pos k)
    rw [poll_loop_step, hmod, if_neg h0.1, if_neg h0.2, if_neg hlt]
    have hceil2 : elapsed + poll_interval_us + poll_interval_us * (k + 1) ≤ timeout_us := by
      simp only [poll_interval_us, timeout_us] at hceil ⊢
      omega
    have hq2 : ∀ j, j < k → ¬ rx_or_idle_set h (irq_read h (rfid_read h.ComIrqReg s).2 j) ∧
        ¬ timer_set h (irq_read h (rfid_read h.ComIrqReg s).2 j) := by
      intro j hj
      rw [← irq_read_succ]
      exact hquiet (j + 1) (by omega)
    have hres := ih f (elapsed + poll_interval_us) (rfid_read h.ComIrqReg s).2 (by omega) hceil2 hq2
    have he : elapsed + poll_interval_us + poll_interval_us * (k + 1) =
        elapsed + poll_interval_us * (k + 1 + 1) := by
      simp only [poll_interval_us]
      omega
    rw [he, ← irq_read_succ] at hres
    exact hres

/-- With no interrupt bit in the first `k + 1` reads, the ceiling reached exactly at
read `k`, the loop stops there with `MI_TIMEOUT`. -/
theorem poll_loop_quiet (h : RfidHeader) (k : Nat) :
    ∀ (fuel elapsed : Nat) (s : SpiState), k < fuel →
      elapsed + poll_interval_us * (k + 1) = timeout_us →
      (∀ j, j ≤ k → ¬ rx_or_idle_set h (irq_read h s j) ∧ ¬ timer_set h (irq_read h s j)) →
      poll_loop h fuel elapsed s =
        some (Status.MI_TIMEOUT, timeout_us, after_reads h.ComIrqReg (k + 1) s) := by
  induction k with
  | zero =>
    intro fuel elapsed s hfuel hceil hquiet
    obtain ⟨f, rfl⟩ : ∃ f, fuel = f + 1 := ⟨fuel - 1, by omega⟩
    have hmod : (elapsed + poll_interval_us) % 2 ^ 32 = timeout_us := by
      simp only [poll_interval_us, timeout_us] at hceil ⊢
      omega
    have h0 := hquiet 0 (Nat.le_refl 0)
    rw [poll_loop_step, hmod, if_neg h0.1, if_neg h0.2, if_pos (Nat.le_refl _)]
    rfl
  | succ k ih =>
    intro fuel elapsed s hfuel hceil hquiet
    obtain ⟨f, rfl⟩ : ∃ f, fuel = f + 1 := ⟨fuel - 1, by omega⟩
    have hmod : (elapsed + poll_interval_us) % 2 ^ 32 = elapsed + poll_interval_us := by
      simp only [poll_interval_us, timeout_us] at hceil ⊢
      omega
    have hlt : ¬ (elapsed + poll_interval_us ≥ timeout_us) := by
      simp only [poll_interval_us, timeout_us] at hceil ⊢
      omega
    have h0 := hquiet 0 (Nat.zero_le _)
    rw [poll_loop_step, hmod, if_neg h0.1, if_neg h0.2, if_neg hlt]
    have hceil2 : elapsed + poll_interval_us + poll_interval_us * (k + 1) = timeout_us := by
      simp only [poll_interval_us, timeout_us] at hceil ⊢
      omega
    have hq2 : ∀ j, j ≤ k → ¬ rx_or_idle_set h (irq_read h (rfid_read h.ComIrqReg s).2 j) ∧
        ¬ timer_set h (irq_read h (rfid_read h.ComIrqReg s).2 j) := by
      intro j hj
      rw [← irq_read_succ]
      exact hquiet (j + 1) (by omega)
    exact ih f (elapsed + poll_interval_us) (rfid_read h.ComIrqReg s).2 (by omega) hceil2 hq2

/-- Whatever the bus delivers, with `m` passes of fuel and the ceiling at most `m`
passes away, the poll loop returns after between 1 and `m` passes. -/
theorem poll_loop_returns (h : RfidHeader) (m : Nat) :
    ∀ (fuel elapsed : Nat) (s : SpiState), 1 ≤ m → m ≤ fuel →
      timeout_us ≤ elapsed + poll_interval_us * m →
      elapsed + poll_interval_us * m < 2 ^ 32 →
      ∃ (n : Nat) (st : Status), 1 ≤ n ∧ n ≤ m ∧
        poll_loop h fuel elapsed s =
          some (st, elapsed + poll_interval_us * n, after_reads h.ComIrqReg n s) := by
  induction m with
  | zero =>
    intro fuel elapsed s hm
    omega
  | succ m ih =>
    intro fuel elapsed s _ hfuel hceil hbound
    obtain ⟨f, rfl⟩ : ∃ f, fuel = f + 1 := ⟨fuel - 1, by omega⟩
    have hmod : (elapsed + poll_interval_us) % 2 ^ 32 = elapsed + poll_interval_us * 1 := by
      simp only [poll_interval_us] at hbound ⊢
      omega
    rw [poll_loop_step, hmod]
    by_cases hv : rx_or_idle_set h (irq_read h s 0)
    · exact ⟨1, Status.MI_OK, le_refl 1, by omega, by rw [if_pos hv]; rfl⟩
    · rw [if_neg hv]
      by_cases ht : timer_set h (irq_read h s 0)
      · exact ⟨1, Status.MI_ERR, le_refl 1, by omega, by rw [if_pos ht]; rfl⟩
      · rw [if_neg ht]
        by_cases hc : elapsed + poll_interval_us * 1 ≥ timeout_us
        · exact ⟨1, Status.MI_TIMEOUT, le_refl 1, by omega, by rw [if_pos hc]; rfl⟩
        · rw [if_neg hc]
          have hm1 : 1 ≤ m := by
            simp only [poll_interval_us, timeout_us] at hceil hc
            omega
          obtain ⟨n, st, hn1, hnm, hres⟩ :=
            ih f (elapsed + poll_interval_us * 1) (rfid_read h.ComIrqReg s).2 hm1 (by omega)
              (by simp only [poll_interval_us, timeout_us] at hceil ⊢; omega)
              (by simp only [poll_interval_us] at hbound ⊢; omega)
          refine ⟨n + 1, st, by omega, by omega, ?_⟩
          rw [hres]
          have he : elapsed + poll_interval_us * 1 + poll_interval_us * n =
              elapsed + poll_interval_us * (n + 1) := by
            simp only [poll_interval_us]
            omega
          rw [he]
          rfl

theorem transceive_finish_status (h : RfidHeader) (status : Status) (recvBuf : Option Buffer)
    (recvLen : Option Nat) (s : SpiState) :
    (transceive_finish h status recvBuf recvLen s).status = status := by
  unfold transceive_finish
  cases status <;> cases recvLen <;> cases recvBuf <;> rfl

/-- The status `rfid_transceive` returns is the one its poll loop ended with. -/
theorem rfid_transceive_status (h : RfidHeader) (fuel : Nat) (sendBuf : List Nat)
    (sendLen : Nat) (recvBuf : Option Buffer) (recvLen : Option Nat) (s : SpiState) :
    (rfid_transceive h fuel sendBuf sendLen recvBuf recvLen s).map (fun r => r.status) =
      (poll_loop h fuel 0 (transceive_start h sendBuf sendLen s)).map (fun r => r.1) := by
  unfold rfid_transceive
  simp only []
  cases poll_loop h fuel 0 (transceive_start h sendBuf sendLen s) with
  | none => rfl
  | some r =>
    obtain ⟨st, e, s2⟩ := r
    simp only [Option.map_some', transceive_finish_status]

/-- With fuel for 2500 passes `rfid_transceive` returns. -/
theorem rfid_transceive_returns (h : RfidHeader) (fuel : Nat) (hfuel : 2500 ≤ fuel)
    (sendBuf : List Nat) (sendLen : Nat) (recvBuf : Option Buffer) (recvLen : Option Nat)
    (s : SpiState) :
    ∃ r, rfid_transceive h fuel sendBuf sendLen recvBuf recvLen s = some r := by
  obtain ⟨n, st, _, _, hres⟩ :=
    poll_loop_returns h 2500 fuel 0 (transceive_start h sendBuf sendLen s) (by decide) hfuel
      (by decide) (by decide)
  unfold rfid_transceive
  simp only [hres]
  exact ⟨_, rfl⟩

/-! ## Buses that never show an interrupt bit -/

theorem rfid_spi_transfer_rx (sendBuf : List Nat) (recvBuf : Buffer) (len : Nat) (s : SpiState) :
    (rfid_spi_transfer sendBuf recvBuf len s).2.rx = s.rx := by
  unfold rfid_spi_transfer
  split <;> rfl

theorem rfid_write_rx (addr data : Nat) (s : SpiState) : (rfid_write addr data s).rx = s.rx := by
  unfold rfid_write
  exact rfid_spi_transfer_rx _ _ _ s

theorem rfid_read_rx (addr : Nat) (s : SpiState) : (rfid_read addr s).2.rx = s.rx := by
  unfold rfid_read
  exact rfid_spi_transfer_rx _ _ _ s

theorem rfid_fifo_write_rx (h : RfidHeader) (buff : List Nat) (size : Nat) (s : SpiState) :
    (rfid_fifo_write h buff size s).rx = s.rx := by
  unfold rfid_fifo_write
  exact rfid_spi_transfer_rx _ _ _ s

theorem transceive_start_rx (h : RfidHeader) (sendBuf : List Nat) (sendLen : Nat) (s : SpiState) :
    (transceive_start h sendBuf sendLen s).rx = s.rx := by
  unfold transceive_start
  simp only [rfid_write_rx, rfid_read_rx, rfid_fifo_write_rx]

theorem after_reads_rx (addr : Nat) (n : Nat) :
    ∀ s : SpiState, (after_reads addr n s).rx = s.rx := by
  induction n with
  | zero =>
    intro s
    rfl
  | succ n ih =>
    intro s
    unfold after_reads
    rw [ih, rfid_read_rx]

/-- On a bus that clocks in zero bytes only, every register read returns 0. -/
theorem rfid_read_zero_bus (addr : Nat) (s : SpiState) (hrx : s.rx = fun _ _ => 0) :
    (rfid_read addr s).1 = 0 := by
  unfold rfid_read rfid_spi_transfer
  split
  · rfl
  · simp [hrx, u8]

theorem irq_read_zero_bus (h : RfidHeader) (s : SpiState) (hrx : s.rx = fun _ _ => 0) (j : Nat) :
    ¬ rx_or_idle_set h (irq_read h s j) ∧ ¬ timer_set h (irq_read h s j) := by
  have hz : irq_read h s j = 0 := by
    unfold irq_read
    apply rfid_read_zero_bus
    rw [after_reads_rx, hrx]
  rw [hz]
  simp [rx_or_idle_set, timer_set]

/-! ## Claims on the transceive engine -/

/-- C8: whatever values the successive `ComIrqReg` reads of the poll loop of
`rfid_transceive` return, the returned status is decided by the first read, among the
first 2500, in which a receive-complete, idle or timer interrupt bit is set: `MI_OK` if
the receive-complete or idle bit is set in that read, `MI_ERR` if only the timer bit is
set. So a timer interrupt that shows in an earlier read than the receive interrupt
yields `MI_ERR`. -/
theorem C8_first_interrupt_decides_status (h : RfidHeader) (fuel : Nat) (sendBuf : List Nat)
    (sendLen : Nat) (recvBuf : Option Buffer) (recvLen : Option Nat) (s : SpiState) (k : Nat)
    (hfuel : 2500 ≤ fuel) (hk : k < 2500)
    (hquiet : ∀ j, j < k →
      ¬ rx_or_idle_set h (irq_read h (transceive_start h sendBuf sendLen s) j) ∧
      ¬ timer_set h (irq_read h (transceive_start h sendBuf sendLen s) j)) :
    (rx_or_idle_set h (irq_read h (transceive_start h sendBuf sendLen s) k) →
      (rfid_transceive h fuel sendBuf sendLen recvBuf recvLen s).map (fun r => r.status) =
        some Status.MI_OK) ∧
    (¬ rx_or_idle_set h (irq_read h (transceive_start h sendBuf sendLen s) k) →
      timer_set h (irq_read h (transceive_start h sendBuf sendLen s) k) →
      (rfid_transceive h fuel sendBuf sendLen recvBuf recvLen s).map (fun r => r.status) =
        some Status.MI_ERR) := by
  have hceil : 0 + poll_interval_us * (k + 1) ≤ timeout_us := by
    simp only [poll_interval_us, timeout_us]
    omega
  obtain ⟨hok, herr⟩ :=
    poll_loop_first_event h k fuel 0 (transceive_start h sendBuf sendLen s) (by omega) hceil hquiet
  rw [rfid_transceive_status]
  constructor
  · intro hv
    rw [hok hv]
    rfl
  · intro hv ht
    rw [herr hv ht]
    rfl

theorem C8_first_interrupt_decides_status_witness :
    2500 ≤ 2500 ∧ 3 < 2500 ∧
    (∀ j, j < 3 →
      ¬ rx_or_idle_set mfrc522 (irq_read mfrc522 (transceive_start mfrc522 [0x26] 1 timer_first_bus) j) ∧
      ¬ timer_set mfrc522 (irq_read mfrc522 (transceive_start mfrc522 [0x26] 1 timer_first_bus) j)) ∧
    ¬ rx_or_idle_set mfrc522 (irq_read mfrc522 (transceive_start mfrc522 [0x26] 1 timer_first_bus) 3) ∧
    timer_set mfrc522 (irq_read mfrc522 (transceive_start mfrc522 [0x26] 1 timer_first_bus) 3) ∧
    rx_or_idle_set mfrc522 (irq_read mfrc522 (transceive_start mfrc522 [0x26] 1 timer_first_bus) 5) ∧
    (rfid_transceive mfrc522 2500 [0x26] 1 none none timer_first_bus).map (fun r => r.status) =
      some Status.MI_ERR :=
  ⟨by decide, by decide, by decide, by decide, by decide, by decide,
    (C8_first_interrupt_decides_status mfrc522 2500 [0x26] 1 none none timer_first_bus 3
      (by decide) (by decide) (by decide)).2 (by decide) (by decide)⟩

/-- C9: if no `ComIrqReg` read ever shows a receive-complete, idle or timer interrupt
bit, the poll loop of `rfid_transceive` ends after exactly 2500 passes, with
`elapsed_time` 25000 = 2500 x 10, and `rfid_transceive` returns `MI_TIMEOUT`; and for
every bus behaviour the poll loop ends after at least 1 and at most 2500 passes. -/
theorem C9_poll_loop_bounded (h : RfidHeader) (fuel : Nat) (sendBuf : List Nat)
    (sendLen : Nat) (recvBuf : Option Buffer) (recvLen : Option Nat) (s : SpiState)
    (hfuel : 2500 ≤ fuel) :
    ((∀ j, ¬ rx_or_idle_set h (irq_read h (transceive_start h sendBuf sendLen s) j) ∧
          ¬ timer_set h (irq_read h (transceive_start h sendBuf sendLen s) j)) →
      poll_loop h fuel 0 (transceive_start h sendBuf sendLen s) =
        some (Status.MI_TIMEOUT, 2500 * poll_interval_us,
          after_reads h.ComIrqReg 2500 (transceive_start h sendBuf sendLen s)) ∧
      2500 * poll_interval_us = timeout_us ∧
      (rfid_transceive h fuel sendBuf sendLen recvBuf recvLen s).map (fun r => r.status) =
        some Status.MI_TIMEOUT) ∧
    (∃ (n : Nat) (st : Status), 1 ≤ n ∧ n ≤ 2500 ∧
      poll_loop h fuel 0 (transceive_start h sendBuf sendLen s) =
        some (st, n * poll_interval_us,
          after_reads h.ComIrqReg n (transceive_start h sendBuf sendLen s))) := by
  constructor
  · intro hquiet
    have hres := poll_loop_quiet h 2499 fuel 0 (transceive_start h sendBuf sendLen s)
      (by omega) (by decide) (fun j _ => hquiet j)
    refine ⟨hres, by decide, ?_⟩
    rw [rfid_transceive_status, hres]
    rfl
  · obtain ⟨n, st, hn1, hn2, hres⟩ :=
      poll_loop_returns h 2500 fuel 0 (transceive_start h sendBuf sendLen s) (by decide) hfuel
        (by decide) (by decide)
    refine ⟨n, st, hn1, hn2, ?_⟩
    rw [hres, Nat.zero_add, Nat.mul_comm]

theorem C9_poll_loop_bounded_witness :
    2500 ≤ 2500 ∧
    (∀ j, ¬ rx_or_idle_set mfrc522 (irq_read mfrc522 (transceive_start mfrc522 [0x26] 1 quiet_bus) j) ∧
          ¬ timer_set mfrc522 (irq_read mfrc522 (transceive_start mfrc522 [0x26] 1 quiet_bus) j)) ∧
    (poll_loop mfrc522 2500 0 (transceive_start mfrc522 [0x26] 1 quiet_bus) =
        some (Status.MI_TIMEOUT, 2500 * poll_interval_us,
          after_reads mfrc522.ComIrqReg 2500 (transceive_start mfrc522 [0x26] 1 quiet_bus)) ∧
      2500 * poll_interval_us = timeout_us ∧
      (rfid_transceive mfrc522 2500 [0x26] 1 none none quiet_bus).map (fun r => r.status) =
        some Status.MI_TIMEOUT) :=
  have hq : ∀ j,
      ¬ rx_or_idle_set mfrc522 (irq_read mfrc522 (transceive_start mfrc522 [0x26] 1 quiet_bus) j) ∧
      ¬ timer_set mfrc522 (irq_read mfrc522 (transceive_start mfrc522 [0x26] 1 quiet_bus) j) :=
    irq_read_zero_bus mfrc522 _ (by rw [transceive_start_rx]; rfl)
  ⟨by decide, hq,
    (C9_poll_loop_bounded mfrc522 2500 [0x26] 1 none none quiet_bus (by decide)).1 hq⟩

/-- On the quiet bus the presence exchange of `rfid_get_uid` times out. -/
theorem quiet_bus_presence_times_out :
    (rfid_transceive mfrc522 2500 [u8 mfrc522.PICC_REQA] 1 none none
      (rfid_write mfrc522.BitFramingReg 7 quiet_bus)).map (fun r => r.status) =
      some Status.MI_TIMEOUT := by
  rw [rfid_transceive_status]
  have hres := poll_loop_quiet mfrc522 2499 2500 0
    (transceive_start mfrc522 [u8 mfrc522.PICC_REQA] 1 (rfid_write mfrc522.BitFramingReg 7 quiet_bus))
    (by decide) (by decide)
    (fun j _ => irq_read_zero_bus mfrc522 _ (by rw [transceive_start_rx, rfid_write_rx]; rfl) j)
  rw [hres]
  rfl

/-- C10: for every bus behaviour, with the SPI device opened, the presence exchange
(REQA) of `rfid_get_uid` returns, and if its status is not `MI_OK` then `rfid_get_uid`
returns exactly that status, in the bus state the presence exchange ended in (no
further transfer, so no anti-collision exchange), with `*uid` as it was. -/
theorem C10_presence_failure_is_returned (h : RfidHeader) (fuel : Nat) (uid : Nat)
    (s : SpiState) (hopen : s.spi_device_opened = true) (hfuel : 2500 ≤ fuel) :
    ∃ r1, rfid_transceive h fuel [u8 h.PICC_REQA] 1 none none (rfid_write h.BitFramingReg 7 s) =
        some r1 ∧
      (r1.status ≠ Status.MI_OK →
        rfid_get_uid h fuel uid s = some { status := r1.status, uid := uid, spi := r1.spi }) := by
  obtain ⟨r1, hr1⟩ := rfid_transceive_returns h fuel hfuel [u8 h.PICC_REQA] 1 none none
    (rfid_write h.BitFramingReg 7 s)
  refine ⟨r1, hr1, ?_⟩
  intro hst
  unfold rfid_get_uid
  have hne : ¬ s.spi_device_opened = false := by
    rw [hopen]
    exact Bool.noConfusion
  rw [if_neg hne]
  simp only [hr1]
  rw [if_pos hst]

theorem C10_presence_failure_is_returned_witness :
    quiet_bus.spi_device_opened = true ∧ 2500 ≤ 2500 ∧
    (rfid_transceive mfrc522 2500 [u8 mfrc522.PICC_REQA] 1 none none
      (rfid_write mfrc522.BitFramingReg 7 quiet_bus)).map (fun r => r.status) =
      some Status.MI_TIMEOUT ∧
    ∃ r1, rfid_transceive mfrc522 2500 [u8 mfrc522.PICC_REQA] 1 none none
          (rfid_write mfrc522.BitFramingReg 7 quiet_bus) = some r1 ∧
      (r1.status ≠ Status.MI_OK →
        rfid_get_uid mfrc522 2500 77 quiet_bus =
          some { status := r1.status, uid := 77, spi := r1.spi }) :=
  ⟨rfl, by decide, quiet_bus_presence_times_out,
    C10_presence_failure_is_returned mfrc522 2500 77 quiet_bus rfl (by decide)⟩

/-! ## Claims on one pass of the polling loop -/

theorem stored_append_new (s : HandlerState) (slot : rfid_tag) (t : List Event)
    (h0 : 0 ≤ s.num_tags) :
    stored { tags := store s.tags s.num_tags.toNat slot, num_tags := s.num_tags + 1,
             cancel_thread := s.cancel_thread, trace := t } = stored s ++ [slot] := by
  have hn : (s.num_tags + 1).toNat = s.num_tags.toNat + 1 := by omega
  simp only [stored, indices, hn, List.range_succ, List.map_append, List.map_cons, List.map_nil,
    store, if_true]
  congr 1
  apply List.map_congr_left
  intro i hi
  rw [List.mem_range] at hi
  unfold store
  rw [if_neg (by omega)]

/-- C3 (as the code behaves): for every non-zero uid that is not yet in the registry,
registry not full, one detection of that uid with the joystick at LEFT, processed by
one pass of the polling loop, appends the tag `{uid, allowed = true}`, which is then
the only tag for that uid, and makes no servo call: the only collaborator calls of the
pass are the NEW TAG log entry and the 1000 ms sleep. -/
theorem C3_first_detection_enrols_without_door (h : RfidHeader) (env : PassEnv) (fuel : Nat)
    (spi : SpiState) (hs : HandlerState) (raw uid : Nat)
    (hread : (rfid_get_uid h fuel 0 spi).map (fun r => r.uid) = some raw)
    (huid : uid = (raw >>> 8) % 2 ^ 32) (hnz : uid ≠ 0)
    (habsent : tagExists hs uid = false)
    (h0 : 0 ≤ hs.num_tags) (hroom : hs.num_tags < 256)
    (hleft : env.joystick = JoystickInput.LEFT) :
    ∃ sys1, rfid_handler_pass h env fuel (spi, hs) = some sys1 ∧
      stored sys1.2 = stored hs ++ [{ uid := uid, allowed := true, last_seen := env.addTag_env.now }] ∧
      (stored sys1.2).filter (fun t => decide (t.uid = uid)) =
        [{ uid := uid, allowed := true, last_seen := env.addTag_env.now }] ∧
      sys1.2.trace = hs.trace ++
        [Event.enqueueLog (LogMsg.NEW_TAG env.addTag_env.now uid true), Event.sleep_for_ms 1000] ∧
      servo_commands sys1.2.trace = servo_commands hs.trace ∧
      door_open_commands sys1.2.trace = door_open_commands hs.trace := by
  cases hg : rfid_get_uid h fuel 0 spi with
  | none =>
    rw [hg] at hread
    exact absurd hread (by simp)
  | some r =>
    rw [hg] at hread
    simp only [Option.map_some', Option.some.injEq] at hread
    have hraw : r.uid ≠ 0 := by
      intro hz
      apply hnz
      rw [huid, ← hread, hz]
      rfl
    have hshift : (r.uid >>> 8) % 2 ^ 32 = uid := by
      rw [huid, hread]
    have hadd := addTag_new env.addTag_env fuel hs uid 1 habsent hroom
    have hstored := stored_append_new hs
      { uid := uid, allowed := true, last_seen := env.addTag_env.now }
      (hs.trace ++ [Event.enqueueLog (LogMsg.NEW_TAG env.addTag_env.now uid true)] ++
        [Event.sleep_for_ms 1000]) h0
    refine ⟨(r.spi, _), ?_, hstored, ?_, ?_, ?_, ?_⟩
    · unfold rfid_handler_pass
      simp only [hg, hshift, hraw, hleft, ne_eq, not_false_eq_true, if_true, hadd, emit]
      simp
    · rw [hstored, List.filter_append]
      have hnone : (stored hs).filter (fun t => decide (t.uid = uid)) = [] := by
        rw [List.filter_eq_nil_iff]
        intro t ht
        simp only [stored, List.mem_map] at ht
        obtain ⟨i, hi, rfl⟩ := ht
        have := (tagExists_eq_false_iff hs uid).mp habsent i ((mem_indices hs.num_tags i).mp hi)
        simpa using this
      rw [hnone]
      simp
    · simp
    · simp [servo_commands]
    · simp [door_open_commands]

theorem C3_first_detection_enrols_without_door_witness :
    (rfid_get_uid mfrc522 2500 0 card_bus).map (fun r => r.uid) = some 0x1234ABCD40 ∧
    0x1234ABCD = (0x1234ABCD40 >>> 8) % 2 ^ 32 ∧ 0x1234ABCD ≠ 0 ∧
    tagExists initial_state 0x1234ABCD = false ∧
    0 ≤ initial_state.num_tags ∧ initial_state.num_tags < 256 ∧
    left_env.joystick = JoystickInput.LEFT ∧
    ∃ sys1, rfid_handler_pass mfrc522 left_env 2500 (card_bus, initial_state) = some sys1 ∧
      stored sys1.2 = stored initial_state ++
        [{ uid := 0x1234ABCD, allowed := true, last_seen := left_env.addTag_env.now }] ∧
      (stored sys1.2).filter (fun t => decide (t.uid = 0x1234ABCD)) =
        [{ uid := 0x1234ABCD, allowed := true, last_seen := left_env.addTag_env.now }] ∧
      sys1.2.trace = initial_state.trace ++
        [Event.enqueueLog (LogMsg.NEW_TAG left_env.addTag_env.now 0x1234ABCD true),
         Event.sleep_for_ms 1000] ∧
      servo_commands sys1.2.trace = servo_commands initial_state.trace ∧
      door_open_commands sys1.2.trace = door_open_commands initial_state.trace :=
  ⟨by decide, by decide, by decide, by decide, by decide, by decide, rfl,
    C3_first_detection_enrols_without_door mfrc522 left_env 2500 card_bus initial_state
      0x1234ABCD40 0x1234ABCD (by decide) (by decide) (by decide) (by decide) (by decide)
      (by decide) rfl⟩

/-- C3 as stated fails at the input the spec names: the empty registry receives one
detection of uid `0x1234ABCD` with the joystick at LEFT. The pass ends with the single
tag `{0x1234ABCD, allowed = true}` stored and with no `servo_set_position_deg(DOOR_OPEN)`
call in the trace, so the door-open sequence ran zero times, not once. -/
theorem C3_first_detection_runs_no_door_sequence :
    (rfid_handler_pass mfrc522 left_env 2500 (card_bus, initial_state)).map
        (fun sys => stored sys.2) =
      some [{ uid := 0x1234ABCD, allowed := true, last_seen := 100 }] ∧
    (rfid_handler_pass mfrc522 left_env 2500 (card_bus, initial_state)).map
        (fun sys => door_open_commands sys.2.trace) = some 0 ∧
    ¬ ((rfid_handler_pass mfrc522 left_env 2500 (card_bus, initial_state)).map
        (fun sys => door_open_commands sys.2.trace) = some 1) :=
  ⟨by decide, by decide, by decide⟩

/-! ## Further claims on the tag registry -/

/-- C14: for every registry that already holds an entry for `uid` and every
permission, a call `addTag(uid, p)` that returns leaves `num_tags` unchanged, leaves the
sequence of stored uids unchanged, and leaves every slot whose uid differs from `uid`
unchanged. -/
theorem C14_known_tag_frame (env : AddTagEnv) (fuel : Nat) (s s1 : HandlerState) (uid : Nat)
    (permission : Int)
    (hex : ∃ i : Nat, (i : Int) < s.num_tags ∧ (s.tags i).uid = uid)
    (h : addTag env fuel s uid permission = some s1) :
    s1.num_tags = s.num_tags ∧
    (stored s1).map (fun t => t.uid) = (stored s).map (fun t => t.uid) ∧
    (∀ i : Nat, (s1.tags i).uid = (s.tags i).uid) ∧
    (∀ i : Nat, (s.tags i).uid ≠ uid → s1.tags i = s.tags i) := by
  obtain ⟨ht, hn⟩ :=
    addTag_known_registry env fuel s s1 uid permission ((tagExists_iff s uid).mpr hex) h
  refine ⟨hn, ?_, ?_, ?_⟩
  · simp only [stored, ht, hn]
  · intro i
    rw [ht]
  · intro i _
    rw [ht]

theorem C14_known_tag_frame_witness :
    (∃ i : Nat, (i : Int) < enrolled_state.num_tags ∧ (enrolled_state.tags i).uid = 0x1234ABCD) ∧
    addTag later_env 10 enrolled_state 0x1234ABCD 1 = some known_result ∧
    (known_result.num_tags = enrolled_state.num_tags ∧
      (stored known_result).map (fun t => t.uid) = (stored enrolled_state).map (fun t => t.uid) ∧
      (∀ i : Nat, (known_result.tags i).uid = (enrolled_state.tags i).uid) ∧
      (∀ i : Nat, (enrolled_state.tags i).uid ≠ 0x1234ABCD →
        known_result.tags i = enrolled_state.tags i)) :=
  ⟨⟨0, by decide, rfl⟩, rfl,
    C14_known_tag_frame later_env 10 enrolled_state known_result 0x1234ABCD 1
      ⟨0, by decide, rfl⟩ rfl⟩

/-- C15: for every registry with `num_tags < 256` and every uid not present in it,
`addTag(uid, p)` returns and has appended: `num_tags` is one larger, the first (old
`num_tags`) slots are unchanged, and the new last slot is `uid` with `allowed` set from
`p` and `last_seen` the time of the call; for `0 ≤ num_tags` the stored sequence is
the old one followed by that tag. -/
theorem C15_new_tag_appended (env : AddTagEnv) (fuel : Nat) (s : HandlerState) (uid : Nat)
    (permission : Int) (hroom : s.num_tags < 256)
    (habsent : ∀ i : Nat, (i : Int) < s.num_tags → (s.tags i).uid ≠ uid) :
    ∃ s1, addTag env fuel s uid permission = some s1 ∧
      s1.num_tags = s.num_tags + 1 ∧
      (∀ i : Nat, (i : Int) < s.num_tags → s1.tags i = s.tags i) ∧
      s1.tags (s1.num_tags - 1).toNat =
        { uid := uid, allowed := decide (permission ≠ 0), last_seen := env.now } ∧
      (0 ≤ s.num_tags → stored s1 = stored s ++
        [{ uid := uid, allowed := decide (permission ≠ 0), last_seen := env.now }]) := by
  have hex : tagExists s uid = false := (tagExists_eq_false_iff s uid).mpr habsent
  refine ⟨_, addTag_new env fuel s uid permission hex hroom, rfl, ?_, ?_, ?_⟩
  · intro i hi
    simp only [store]
    rw [if_neg (by omega)]
  · simp only [store]
    rw [if_pos (by omega)]
  · intro h0
    exact stored_append_new s _ _ h0

theorem C15_new_tag_appended_witness :
    enrolled_state.num_tags < 256 ∧
    (∀ i : Nat, (i : Int) < enrolled_state.num_tags → (enrolled_state.tags i).uid ≠ 7) ∧
    ∃ s1, addTag later_env 0 enrolled_state 7 0 = some s1 ∧
      s1.num_tags = enrolled_state.num_tags + 1 ∧
      (∀ i : Nat, (i : Int) < enrolled_state.num_tags → s1.tags i = enrolled_state.tags i) ∧
      s1.tags (s1.num_tags - 1).toNat =
        { uid := 7, allowed := decide ((0 : Int) ≠ 0), last_seen := later_env.now } ∧
      (0 ≤ enrolled_state.num_tags → stored s1 = stored enrolled_state ++
        [{ uid := 7, allowed := decide ((0 : Int) ≠ 0), last_seen := later_env.now }]) :=
  have habsent : ∀ i : Nat, (i : Int) < enrolled_state.num_tags →
      (enrolled_state.tags i).uid ≠ 7 := by
    intro i hi
    have hi0 : i = 0 := by
      simp only [enrolled_state] at hi
      omega
    subst hi0
    decide
  ⟨by decide, habsent, C15_new_tag_appended later_env 0 enrolled_state 7 0 (by decide) habsent⟩

/-- C16: for every registry and every uid not among its first `num_tags` entries,
`removeTag(uid)` leaves the state as it was: `num_tags`, every slot, and the trace of
collaborator calls. -/
theorem C16_remove_absent_unchanged (now : Int) (s : HandlerState) (uid : Nat)
    (habsent : ∀ i : Nat, (i : Int) < s.num_tags → (s.tags i).uid ≠ uid) :
    removeTag now s uid = s :=
  removeTag_absent now s uid ((tagExists_eq_false_iff s uid).mpr habsent)

theorem C16_remove_absent_unchanged_witness :
    (∀ i : Nat, (i : Int) < three_tags.num_tags → (three_tags.tags i).uid ≠ 25) ∧
    removeTag 0 three_tags 25 = three_tags :=
  have habsent : ∀ i : Nat, (i : Int) < three_tags.num_tags → (three_tags.tags i).uid ≠ 25 := by
    intro i _ h
    simp only [three_tags] at h
    omega
  ⟨habsent, C16_remove_absent_unchanged 0 three_tags 25 habsent⟩

/-- C20 (evaluation at the failing input): enrol `0x1234ABCD`, then remove it. The
registry is empty again (`num_tags = 0`, `tagExists(0x1234ABCD)` is false), but slot 0
still holds the removed tag, and `getTag(0x1234ABCD)` returns it: a tag whose uid equals
the uid asked for, with `allowed = true`. In the fresh registry the same happens for
uid 0, which the zero-initialised slot 0 carries. -/
theorem C20_miss_returns_matching_uid :
    (run_calls removed_calls initial_state).map
        (fun s => (s.num_tags, tagExists s 0x1234ABCD, getTag s 0x1234ABCD)) =
      some (0, false, { uid := 0x1234ABCD, allowed := true, last_seen := 100 }) ∧
    tagExists initial_state 0 = false ∧ (getTag initial_state 0).uid = 0 :=
  ⟨by decide, by decide, by decide⟩

/-! ## Claims on the UID resolver -/

/-- The caller's length after `transceive_finish` is at most the requested one. -/
theorem transceive_finish_recvLen_le (h : RfidHeader) (status : Status) (recvBuf : Option Buffer)
    (n : Nat) (s : SpiState) :
    ∃ m, (transceive_finish h status recvBuf (some n) s).recvLen = some m ∧ m ≤ n := by
  unfold transceive_finish
  cases status <;> cases recvBuf <;> simp only [] <;>
    first
      | exact ⟨n, rfl, le_refl n⟩
      | (split
         · exact ⟨_, rfl, by omega⟩
         · exact ⟨n, rfl, le_refl n⟩)

theorem rfid_transceive_recvLen_le (h : RfidHeader) (fuel : Nat) (sendBuf : List Nat)
    (sendLen : Nat) (recvBuf : Option Buffer) (n : Nat) (s : SpiState) (r : TransceiveResult)
    (hr : rfid_transceive h fuel sendBuf sendLen recvBuf (some n) s = some r) :
    ∃ m, r.recvLen = some m ∧ m ≤ n := by
  unfold rfid_transceive at hr
  simp only [] at hr
  split at hr
  · exact absurd hr (by simp)
  · injection hr with hr
    subst hr
    exact transceive_finish_recvLen_le h _ recvBuf n _

/-- The part of `rfid_get_uid` after a presence exchange that returned `MI_OK`. -/
theorem rfid_get_uid_after_presence (h : RfidHeader) (fuel : Nat) (uid : Nat) (s : SpiState)
    (r1 r2 : TransceiveResult) (hopen : s.spi_device_opened = true)
    (hr1 : rfid_transceive h fuel [u8 h.PICC_REQA] 1 none none (rfid_write h.BitFramingReg 7 s) =
      some r1)
    (hok : r1.status = Status.MI_OK)
    (hr2 : rfid_transceive h fuel
      [u8 h.PICC_SEL_CL1, u8 (2 <<< h.ANTICOLL_BUF_B2_VALID_BYTES_IN_BUFFER_BIT)] 2
      (some r1.spi.indeterminate) (some 5) r1.spi = some r2) :
    rfid_get_uid h fuel uid s =
      if r2.status ≠ Status.MI_OK ∨ r2.recvLen.getD 0 < 5 then
        some { status := Status.MI_ERR, uid := uid, spi := r2.spi }
      else
        some { status := r2.status
               uid := fold_uid (r2.recvBuf.getD r1.spi.indeterminate) (List.range 5) 0
               spi := r2.spi } := by
  unfold rfid_get_uid
  have hne : ¬ s.spi_device_opened = false := by
    rw [hopen]
    exact Bool.noConfusion
  rw [if_neg hne]
  simp only [hr1]
  rw [if_neg (by rw [hok]; exact fun hn => hn rfl)]
  simp only [hr2]

/-- Whatever `rfid_get_uid` returns: either `*uid` is as it was, or the status is
`MI_OK`. -/
theorem rfid_get_uid_writes_only_on_ok (h : RfidHeader) (fuel : Nat) (uid : Nat) (s : SpiState)
    (r : GetUidResult) (hr : rfid_get_uid h fuel uid s = some r) :
    r.uid = uid ∨ r.status = Status.MI_OK := by
  unfold rfid_get_uid at hr
  split at hr
  · injection hr with hr
    subst hr
    exact Or.inl rfl
  · simp only [] at hr
    split at hr
    · exact absurd hr (by simp)
    · split at hr
      · injection hr with hr
        subst hr
        exact Or.inl rfl
      · split at hr
        · exact absurd hr (by simp)
        · rename_i r2 _
          split at hr
          · injection hr with hr
            subst hr
            exact Or.inl rfl
          · rename_i hcond
            injection hr with hr
            subst hr
            right
            by_contra hst
            exact hcond (Or.inl hst)

/-- C11: for every bus behaviour, with the device opened, the presence exchange returns,
and when it returned `MI_OK` the anti-collision exchange returns too; if that one has a
status other than `MI_OK` or reports fewer than 5 bytes, `rfid_get_uid` returns `MI_ERR`
with `*uid` as it was, and otherwise it returns `MI_OK` with the folded bytes. Whenever
`rfid_get_uid` returns `MI_OK`, both exchanges returned `MI_OK` and 5 bytes were
reported. -/
theorem C11_anticollision_failure_is_error (h : RfidHeader) (fuel : Nat) (uid : Nat)
    (s : SpiState) (hopen : s.spi_device_opened = true) (hfuel : 2500 ≤ fuel) :
    ∃ r1, rfid_transceive h fuel [u8 h.PICC_REQA] 1 none none (rfid_write h.BitFramingReg 7 s) =
        some r1 ∧
      (r1.status = Status.MI_OK →
        ∃ r2, rfid_transceive h fuel
            [u8 h.PICC_SEL_CL1, u8 (2 <<< h.ANTICOLL_BUF_B2_VALID_BYTES_IN_BUFFER_BIT)] 2
            (some r1.spi.indeterminate) (some 5) r1.spi = some r2 ∧
          ((r2.status ≠ Status.MI_OK ∨ r2.recvLen.getD 0 < 5) →
            rfid_get_uid h fuel uid s =
              some { status := Status.MI_ERR, uid := uid, spi := r2.spi }) ∧
          (r2.status = Status.MI_OK → r2.recvLen = some 5 →
            rfid_get_uid h fuel uid s =
              some { status := Status.MI_OK
                     uid := fold_uid (r2.recvBuf.getD r1.spi.indeterminate) (List.range 5) 0
                     spi := r2.spi }) ∧
          (∀ r, rfid_get_uid h fuel uid s = some r → r.status = Status.MI_OK →
            r2.status = Status.MI_OK ∧ r2.recvLen = some 5)) ∧
      (∀ r, rfid_get_uid h fuel uid s = some r → r.status = Status.MI_OK →
        r1.status = Status.MI_OK) := by
  obtain ⟨r1, hr1⟩ := rfid_transceive_returns h fuel hfuel [u8 h.PICC_REQA] 1 none none
    (rfid_write h.BitFramingReg 7 s)
  refine ⟨r1, hr1, ?_, ?_⟩
  · intro hok
    obtain ⟨r2, hr2⟩ := rfid_transceive_returns h fuel hfuel
      [u8 h.PICC_SEL_CL1, u8 (2 <<< h.ANTICOLL_BUF_B2_VALID_BYTES_IN_BUFFER_BIT)] 2
      (some r1.spi.indeterminate) (some 5) r1.spi
    have hget := rfid_get_uid_after_presence h fuel uid s r1 r2 hopen hr1 hok hr2
    obtain ⟨m, hm, hm5⟩ := rfid_transceive_recvLen_le h fuel _ 2 _ 5 r1.spi r2 hr2
    refine ⟨r2, hr2, ?_, ?_, ?_⟩
    · intro hfail
      rw [hget, if_pos hfail]
    · intro hst hlen
      have hcond : ¬ (r2.status ≠ Status.MI_OK ∨ r2.recvLen.getD 0 < 5) := by
        rw [hst, hlen]
        simp
      rw [hget, if_neg hcond, hst]
    · intro r hr hrok
      rw [hget] at hr
      by_cases hcond : r2.status ≠ Status.MI_OK ∨ r2.recvLen.getD 0 < 5
      · rw [if_pos hcond] at hr
        injection hr with hr
        subst hr
        exact absurd hrok (by simp)
      · have hst : r2.status = Status.MI_OK := by
          by_contra hne
          exact hcond (Or.inl hne)
        refine ⟨hst, ?_⟩
        rw [hm] at hcond ⊢
        have : ¬ m < 5 := fun hlt => hcond (Or.inr (by simpa using hlt))
        have hm5' : m = 5 := by omega
        rw [hm5']
  · intro r hr hrok
    by_contra hne
    have hget : rfid_get_uid h fuel uid s =
        some { status := r1.status, uid := uid, spi := r1.spi } := by
      unfold rfid_get_uid
      have hno : ¬ s.spi_device_opened = false := by
        rw [hopen]
        exact Bool.noConfusion
      rw [if_neg hno]
      simp only [hr1]
      rw [if_pos hne]
    rw [hget] at hr
    injection hr with hr
    subst hr
    exact hne hrok

theorem C11_anticollision_failure_is_error_witness :
    short_bus.spi_device_opened = true ∧ 2500 ≤ 2500 ∧
    (rfid_get_uid mfrc522 2500 99 short_bus).map (fun r => (r.status, r.uid)) =
      some (Status.MI_ERR, 99) ∧
    (rfid_get_uid mfrc522 2500 99 card_bus).map (fun r => (r.status, r.uid)) =
      some (Status.MI_OK, 0x1234ABCD40) ∧
    ∃ r1, rfid_transceive mfrc522 2500 [u8 mfrc522.PICC_REQA] 1 none none
          (rfid_write mfrc522.BitFramingReg 7 short_bus) = some r1 ∧
      (r1.status = Status.MI_OK →
        ∃ r2, rfid_transceive mfrc522 2500
            [u8 mfrc522.PICC_SEL_CL1,
             u8 (2 <<< mfrc522.ANTICOLL_BUF_B2_VALID_BYTES_IN_BUFFER_BIT)] 2
            (some r1.spi.indeterminate) (some 5) r1.spi = some r2 ∧
          ((r2.status ≠ Status.MI_OK ∨ r2.recvLen.getD 0 < 5) →
            rfid_get_uid mfrc522 2500 99 short_bus =
              some { status := Status.MI_ERR, uid := 99, spi := r2.spi }) ∧
          (r2.status = Status.MI_OK → r2.recvLen = some 5 →
            rfid_get_uid mfrc522 2500 99 short_bus =
              some { status := Status.MI_OK
                     uid := fold_uid (r2.recvBuf.getD r1.spi.indeterminate) (List.range 5) 0
                     spi := r2.spi }) ∧
          (∀ r, rfid_get_uid mfrc522 2500 99 short_bus = some r → r.status = Status.MI_OK →
            r2.status = Status.MI_OK ∧ r2.recvLen = some 5)) ∧
      (∀ r, rfid_get_uid mfrc522 2500 99 short_bus = some r → r.status = Status.MI_OK →
        r1.status = Status.MI_OK) :=
  ⟨rfl, by decide, by decide, by decide,
    C11_anticollision_failure_is_error mfrc522 2500 99 short_bus rfl (by decide)⟩

/-- One pass of the fold of rfid.c:327 on an accumulator that still has a free top
byte: shift-and-OR is multiply-and-add. -/
theorem fold_step (acc b : Nat) (hacc : acc < 2 ^ 56) (hb : b < 256) :
    ((acc <<< 8) % 2 ^ 64) ||| u8 b = acc * 256 + b := by
  have hu : u8 b = b := by
    unfold u8
    omega
  have hs : (acc <<< 8) % 2 ^ 64 = 2 ^ 8 * acc := by
    rw [Nat.shiftLeft_eq]
    omega
  rw [hu, hs, ← Nat.mul_add_lt_is_or (by omega) acc]
  omega

/-- C12: for all received bytes `b0..b4` (the first five bytes of the receive buffer),
the fold of `rfid_get_uid` produces `b0*2^32 + b1*2^24 + b2*2^16 + b3*2^8 + b4`, and
the correction of the polling loop, `(uint32_t)(uid >> 8)`, of that value is
`b0*2^24 + b1*2^16 + b2*2^8 + b3`: the four uid bytes in received order, the trailing
byte dropped, nothing lost to the truncation to 32 bits. -/
theorem C12_uid_fold_and_shift (recvBuf : Buffer) (hbytes : ∀ i, i < 5 → recvBuf i < 256) :
    fold_uid recvBuf (List.range 5) 0 =
      recvBuf 0 * 2 ^ 32 + recvBuf 1 * 2 ^ 24 + recvBuf 2 * 2 ^ 16 + recvBuf 3 * 2 ^ 8 +
        recvBuf 4 ∧
    (fold_uid recvBuf (List.range 5) 0 >>> 8) % 2 ^ 32 =
      recvBuf 0 * 2 ^ 24 + recvBuf 1 * 2 ^ 16 + recvBuf 2 * 2 ^ 8 + recvBuf 3 := by
  have h0 := hbytes 0 (by decide)
  have h1 := hbytes 1 (by decide)
  have h2 := hbytes 2 (by decide)
  have h3 := hbytes 3 (by decide)
  have h4 := hbytes 4 (by decide)
  have hr : List.range 5 = [0, 1, 2, 3, 4] := by decide
  have hfold : fold_uid recvBuf (List.range 5) 0 =
      recvBuf 0 * 2 ^ 32 + recvBuf 1 * 2 ^ 24 + recvBuf 2 * 2 ^ 16 + recvBuf 3 * 2 ^ 8 +
        recvBuf 4 := by
    rw [hr]
    simp only [fold_uid]
    rw [fold_step 0 (recvBuf 0) (by decide) h0]
    rw [fold_step _ (recvBuf 1) (by omega) h1]
    rw [fold_step _ (recvBuf 2) (by omega) h2]
    rw [fold_step _ (recvBuf 3) (by omega) h3]
    rw [fold_step _ (recvBuf 4) (by omega) h4]
    omega
  refine ⟨hfold, ?_⟩
  rw [hfold, Nat.shiftRight_eq_div_pow]
  omega

theorem C12_uid_fold_and_shift_witness :
    (∀ i, i < 5 → card_bytes i < 256) ∧
    fold_uid card_bytes (List.range 5) 0 = 0x1234ABCD40 ∧
    (fold_uid card_bytes (List.range 5) 0 >>> 8) % 2 ^ 32 = 0x1234ABCD ∧
    (fold_uid card_bytes (List.range 5) 0 =
        card_bytes 0 * 2 ^ 32 + card_bytes 1 * 2 ^ 24 + card_bytes 2 * 2 ^ 16 +
          card_bytes 3 * 2 ^ 8 + card_bytes 4 ∧
      (fold_uid card_bytes (List.range 5) 0 >>> 8) % 2 ^ 32 =
        card_bytes 0 * 2 ^ 24 + card_bytes 1 * 2 ^ 16 + card_bytes 2 * 2 ^ 8 + card_bytes 3) :=
  ⟨by decide, by decide, by decide, C12_uid_fold_and_shift card_bytes (by decide)⟩

/-- With fuel for 2500 passes per poll loop `rfid_get_uid` returns. -/
theorem rfid_get_uid_returns (h : RfidHeader) (fuel : Nat) (hfuel : 2500 ≤ fuel) (uid : Nat)
    (s : SpiState) : ∃ r, rfid_get_uid h fuel uid s = some r := by
  unfold rfid_get_uid
  split
  · exact ⟨_, rfl⟩
  · simp only []
    obtain ⟨r1, hr1⟩ := rfid_transceive_returns h fuel hfuel [u8 h.PICC_REQA] 1 none none
      (rfid_write h.BitFramingReg 7 s)
    simp only [hr1]
    split
    · exact ⟨_, rfl⟩
    · obtain ⟨r2, hr2⟩ := rfid_transceive_returns h fuel hfuel
        [u8 h.PICC_SEL_CL1, u8 (2 <<< h.ANTICOLL_BUF_B2_VALID_BYTES_IN_BUFFER_BIT)] 2
        (some r1.spi.indeterminate) (some 5) r1.spi
      simp only [hr2]
      split
      · exact ⟨_, rfl⟩
      · exact ⟨_, rfl⟩

/-- C19: for every bus behaviour, `rfid_get_uid` called with `*uid = 0`, as the polling
loop does, returns, and a non-zero `*uid` afterwards implies the returned status is
`MI_OK`; so the pass of the loop, whose test is `uid != 0` alone, does the same as the
pass with the spec's test `status == Ok and uid != 0`. -/
theorem C19_nonzero_uid_implies_ok :
    (∀ (h : RfidHeader) (fuel : Nat) (s : SpiState), 2500 ≤ fuel →
      ∃ r, rfid_get_uid h fuel 0 s = some r ∧ (r.uid ≠ 0 → r.status = Status.MI_OK)) ∧
    (∀ (h : RfidHeader) (fuel : Nat) (s : SpiState) (r : GetUidResult),
      rfid_get_uid h fuel 0 s = some r → r.uid ≠ 0 → r.status = Status.MI_OK) ∧
    (∀ (h : RfidHeader) (env : PassEnv) (fuel : Nat) (sys : SpiState × HandlerState),
      rfid_handler_pass h env fuel sys = rfid_handler_pass_spec h env fuel sys) := by
  have hfirst : ∀ (h : RfidHeader) (fuel : Nat) (s : SpiState) (r : GetUidResult),
      rfid_get_uid h fuel 0 s = some r → r.uid ≠ 0 → r.status = Status.MI_OK := by
    intro h fuel s r hr hnz
    rcases rfid_get_uid_writes_only_on_ok h fuel 0 s r hr with h0 | hok
    · exact absurd h0 hnz
    · exact hok
  refine ⟨?_, hfirst, ?_⟩
  · intro h fuel s hfuel
    obtain ⟨r, hr⟩ := rfid_get_uid_returns h fuel hfuel 0 s
    exact ⟨r, hr, hfirst h fuel s r hr⟩
  intro h env fuel sys
  unfold rfid_handler_pass rfid_handler_pass_spec
  cases hg : rfid_get_uid h fuel 0 sys.1 with
  | none => rfl
  | some r =>
    simp only []
    by_cases hnz : r.uid ≠ 0
    · have hok := hfirst h fuel sys.1 r hg hnz
      have hc : r.status = Status.MI_OK ∧ r.uid ≠ 0 := ⟨hok, hnz⟩
      rw [if_pos hnz, if_pos hc]
    · have hc : ¬ (r.status = Status.MI_OK ∧ r.uid ≠ 0) := fun hc => hnz hc.2
      rw [if_neg hnz, if_neg hc]

/-! ## Cancellation -/

/-- The busy-wait is left with `some true` at the first pass in which the display is
still positive and the joystick reads `RIGHT`. -/
theorem busy_wait_cancel (env : AddTagEnv) (m : Nat) :
    ∀ (fuel n0 : Nat), m < fuel →
      (∀ j, j < m → env.display (n0 + j) > 0 ∧ env.joystick (n0 + j) ≠ JoystickInput.RIGHT) →
      env.display (n0 + m) > 0 → env.joystick (n0 + m) = JoystickInput.RIGHT →
      busy_wait env fuel n0 = some true := by
  induction m with
  | zero =>
    intro fuel n0 hfuel _ hd hj
    obtain ⟨f, rfl⟩ : ∃ f, fuel = f + 1 := ⟨fuel - 1, by omega⟩
    unfold busy_wait
    rw [if_pos (show env.display n0 > 0 from hd),
      if_pos (show env.joystick n0 = JoystickInput.RIGHT from hj)]
  | succ m ih =>
    intro fuel n0 hfuel hbefore hd hj
    obtain ⟨f, rfl⟩ : ∃ f, fuel = f + 1 := ⟨fuel - 1, by omega⟩
    have h0 := hbefore 0 (Nat.succ_pos m)
    unfold busy_wait
    rw [if_pos (show env.display n0 > 0 from h0.1),
      if_neg (show ¬ env.joystick n0 = JoystickInput.RIGHT from h0.2)]
    apply ih f (n0 + 1) (by omega)
    · intro j hj2
      have := hbefore (j + 1) (by omega)
      rw [show n0 + 1 + j = n0 + (j + 1) by omega]
      exact this
    · rw [show n0 + 1 + m = n0 + (m + 1) by omega]
      exact hd
    · rw [show n0 + 1 + m = n0 + (m + 1) by omega]
      exact hj

/-- No branch of `addTag` clears `cancel_thread`. -/
theorem addTag_keeps_cancel (env : AddTagEnv) (fuel : Nat) (s s1 : HandlerState) (uid : Nat)
    (permission : Int) (hc : s.cancel_thread = true)
    (h : addTag env fuel s uid permission = some s1) : s1.cancel_thread = true := by
  unfold addTag at h
  split at h
  · simp only [] at h
    split at h
    · split at h
      · split at h
        · exact absurd h (by simp)
        · rename_i cancelled _
          injection h with h
          subst h
          cases cancelled <;> simp [emit, hc]
      · injection h with h
        subst h
        simp [emit, hc]
    · injection h with h
      subst h
      simp [emit, hc]
  · split at h
    · injection h with h
      subst h
      simp [emit, hc]
    · injection h with h
      subst h
      exact hc

theorem removeTag_keeps_cancel (now : Int) (s : HandlerState) (uid : Nat) :
    (removeTag now s uid).cancel_thread = s.cancel_thread := by
  unfold removeTag
  simp only []
  split <;> rfl

theorem rfid_handler_pass_keeps_cancel (h : RfidHeader) (env : PassEnv) (fuel : Nat)
    (sys sys1 : SpiState × HandlerState) (hc : sys.2.cancel_thread = true)
    (hp : rfid_handler_pass h env fuel sys = some sys1) : sys1.2.cancel_thread = true := by
  unfold rfid_handler_pass at hp
  split at hp
  · exact absurd hp (by simp)
  · simp only [] at hp
    split at hp
    · exact absurd hp (by simp)
    · rename_i hs hafter
      injection hp with hp
      subst hp
      simp only [emit]
      split at hafter
      · exact addTag_keeps_cancel _ _ _ _ _ _ hc hafter
      · injection hafter with hafter
        subst hafter
        exact hc

/-- C13: the loop is running (`cancel_thread` false), a pass reads a uid that is already
stored, the joystick is at LEFT at the permission test and the door is reported closed,
so `addTag` enters the countdown busy-wait; the joystick reads RIGHT in pass `m` of the
wait while the display is still positive. Then the wait is left there, the pass returns
with `cancel_thread` set, and `rfid_handler_start` returns after that one pass, in the
bus state that pass's `rfid_get_uid` left: no further `rfid_get_uid` call is made.
No call of `addTag`, `removeTag` or of the loop body resets `cancel_thread`. -/
theorem C13_cancel_ends_polling (h : RfidHeader) (envs : Nat → PassEnv) (fuel passes n : Nat)
    (spi : SpiState) (hs : HandlerState) (raw uid m : Nat)
    (hrun : hs.cancel_thread = false)
    (hread : (rfid_get_uid h fuel 0 spi).map (fun r => r.uid) = some raw) (hraw : raw ≠ 0)
    (huid : uid = (raw >>> 8) % 2 ^ 32) (hknown : tagExists hs uid = true)
    (hleft : (envs n).joystick = JoystickInput.LEFT)
    (hdoor : (envs n).addTag_env.door_position = DoorPosition.DOOR_CLOSED)
    (hbefore : ∀ j, j < m → (envs n).addTag_env.display j > 0 ∧
      (envs n).addTag_env.joystick j ≠ JoystickInput.RIGHT)
    (hdisplay : (envs n).addTag_env.display m > 0)
    (hright : (envs n).addTag_env.joystick m = JoystickInput.RIGHT)
    (hfuel : m < fuel) (hpasses : 2 ≤ passes) :
    busy_wait (envs n).addTag_env fuel 0 = some true ∧
    (∃ r hs1, rfid_get_uid h fuel 0 spi = some r ∧
      rfid_handler_pass h (envs n) fuel (spi, hs) = some (r.spi, hs1) ∧
      hs1.cancel_thread = true ∧
      rfid_handler_start h envs fuel passes n (spi, hs) = some (n + 1, (r.spi, hs1))) ∧
    (∀ (env : AddTagEnv) (f : Nat) (s s1 : HandlerState) (u : Nat) (p : Int),
      s.cancel_thread = true → addTag env f s u p = some s1 → s1.cancel_thread = true) ∧
    (∀ (now : Int) (s : HandlerState) (u : Nat),
      s.cancel_thread = true → (removeTag now s u).cancel_thread = true) ∧
    (∀ (env : PassEnv) (f : Nat) (sys sys1 : SpiState × HandlerState),
      sys.2.cancel_thread = true → rfid_handler_pass h env f sys = some sys1 →
      sys1.2.cancel_thread = true) := by
  have hbw : busy_wait (envs n).addTag_env fuel 0 = some true := by
    apply busy_wait_cancel (envs n).addTag_env m fuel 0 hfuel
    · intro j hj
      rw [Nat.zero_add]
      exact hbefore j hj
    · rw [Nat.zero_add]
      exact hdisplay
    · rw [Nat.zero_add]
      exact hright
  refine ⟨hbw, ?_, ?_, ?_, ?_⟩
  · cases hg : rfid_get_uid h fuel 0 spi with
    | none =>
      rw [hg] at hread
      exact absurd hread (by simp)
    | some r =>
      rw [hg] at hread
      simp only [Option.map_some', Option.some.injEq] at hread
      have hnz : r.uid ≠ 0 := by
        rw [hread]
        exact hraw
      have hshift : (r.uid >>> 8) % 2 ^ 32 = uid := by
        rw [huid, hread]
      have hadd : ∃ hs0, addTag (envs n).addTag_env fuel hs uid 1 = some hs0 ∧
          hs0.cancel_thread = true := by
        unfold addTag
        simp only [hknown, hdoor, hbw, if_true]
        exact ⟨_, rfl, rfl⟩
      obtain ⟨hs0, hadd0, hcancel⟩ := hadd
      have hpass : rfid_handler_pass h (envs n) fuel (spi, hs) =
          some (r.spi, emit hs0 [Event.sleep_for_ms 1000]) := by
        unfold rfid_handler_pass
        simp only [hg, hshift, hleft, if_true]
        rw [if_pos hnz]
        simp only [hadd0]
      refine ⟨r, emit hs0 [Event.sleep_for_ms 1000], rfl, hpass, hcancel, ?_⟩
      obtain ⟨p, rfl⟩ : ∃ p, passes = p + 2 := ⟨passes - 2, by omega⟩
      have hnot : ¬ ((spi, hs).2.cancel_thread = true) := by
        rw [hrun]
        exact Bool.noConfusion
      have hset : (r.spi, emit hs0 [Event.sleep_for_ms 1000]).2.cancel_thread = true := hcancel
      rw [rfid_handler_start, if_neg hnot]
      simp only [hpass]
      rw [rfid_handler_start, if_pos hset]
  · intro env f s s1 u p hc ha
    exact addTag_keeps_cancel env f s s1 u p hc ha
  · intro now s u hc
    rw [removeTag_keeps_cancel, hc]
  · intro env f sys sys1 hc hp
    exact rfid_handler_pass_keeps_cancel h env f sys sys1 hc hp

theorem C13_cancel_ends_polling_witness :
    enrolled_state.cancel_thread = false ∧
    (rfid_get_uid mfrc522 2500 0 card_bus).map (fun r => r.uid) = some 0x1234ABCD40 ∧
    0x1234ABCD40 ≠ 0 ∧ 0x1234ABCD = (0x1234ABCD40 >>> 8) % 2 ^ 32 ∧
    tagExists enrolled_state 0x1234ABCD = true ∧
    cancel_env.joystick = JoystickInput.LEFT ∧
    cancel_env.addTag_env.door_position = DoorPosition.DOOR_CLOSED ∧
    (∀ j, j < 2 → cancel_env.addTag_env.display j > 0 ∧
      cancel_env.addTag_env.joystick j ≠ JoystickInput.RIGHT) ∧
    cancel_env.addTag_env.display 2 > 0 ∧
    cancel_env.addTag_env.joystick 2 = JoystickInput.RIGHT ∧
    2 < 2500 ∧ 2 ≤ 5 ∧
    (rfid_handler_start mfrc522 (fun _ => cancel_env) 2500 5 0 (card_bus, enrolled_state)).map
        (fun res => (res.1, res.2.2.cancel_thread, res.2.1.log.length)) =
      some (1, true, 24) ∧
    busy_wait cancel_env.addTag_env 2500 0 = some true ∧
    (∃ r hs1, rfid_get_uid mfrc522 2500 0 card_bus = some r ∧
      rfid_handler_pass mfrc522 cancel_env 2500 (card_bus, enrolled_state) = some (r.spi, hs1) ∧
      hs1.cancel_thread = true ∧
      rfid_handler_start mfrc522 (fun _ => cancel_env) 2500 5 0 (card_bus, enrolled_state) =
        some (0 + 1, (r.spi, hs1))) :=
  have w := C13_cancel_ends_polling mfrc522 (fun _ => cancel_env) 2500 5 0 card_bus
    enrolled_state 0x1234ABCD40 0x1234ABCD 2 rfl (by decide) (by decide) (by decide) (by decide)
    rfl rfl (by decide) (by decide) (by decide) (by decide) (by decide)
  ⟨rfl, by decide, by decide, by decide, by decide, rfl, rfl, by decide, by decide, by decide,
    by decide, by decide, by decide, w.1, w.2.1⟩

/-! ## Bus log of the register and FIFO accesses -/

theorem rfid_spi_transfer_log (sendBuf : List Nat) (recvBuf : Buffer) (len : Nat) (s : SpiState)
    (hfd : 0 ≤ s.spiFileDesc) :
    (rfid_spi_transfer sendBuf recvBuf len s).2.log = s.log ++ [sendBuf.take len] ∧
    (rfid_spi_transfer sendBuf recvBuf len s).2.spiFileDesc = s.spiFileDesc ∧
    (rfid_spi_transfer sendBuf recvBuf len s).2.rx = s.rx ∧
    ∀ j, (rfid_spi_transfer sendBuf recvBuf len s).1 j =
      if j < len then u8 (s.rx s.log.length j) else recvBuf j := by
  unfold rfid_spi_transfer
  rw [if_neg (by omega)]
  exact ⟨rfl, rfl, rfl, fun _ => rfl⟩

theorem rfid_write_log (addr data : Nat) (s : SpiState) (hfd : 0 ≤ s.spiFileDesc) :
    (rfid_write addr data s).log = s.log ++ [[u8 (u8 addr <<< 1), u8 data]] ∧
    (rfid_write addr data s).spiFileDesc = s.spiFileDesc := by
  unfold rfid_write
  obtain ⟨hl, hf, _, _⟩ :=
    rfid_spi_transfer_log [u8 (u8 addr <<< 1), u8 data] (fun _ => 0) 2 s hfd
  exact ⟨hl, hf⟩

theorem rfid_read_log (addr : Nat) (s : SpiState) (hfd : 0 ≤ s.spiFileDesc) :
    (rfid_read addr s).2.log = s.log ++ [[u8 ((1 <<< 7) ||| (u8 addr <<< 1)), 0x00]] ∧
    (rfid_read addr s).2.spiFileDesc = s.spiFileDesc ∧
    (rfid_read addr s).1 = u8 (s.rx s.log.length 1) := by
  unfold rfid_read
  obtain ⟨hl, hf, _, hv⟩ :=
    rfid_spi_transfer_log [u8 ((1 <<< 7) ||| (u8 addr <<< 1)), 0x00] (fun _ => 0) 2 s hfd
  exact ⟨hl, hf, by simp only []; rw [hv 1]; rfl⟩

/-- For a size below 255, `rfid_fifo_read` makes one transfer of `size + 1` bytes, the
address byte `size` times and the stop byte, and the bytes 1 to `size` clocked in land
in `buff[0..size-1]`; the rest of `buff` is as before. -/
theorem rfid_fifo_read_log (h : RfidHeader) (buff : Buffer) (size : Nat) (s : SpiState)
    (hfd : 0 ≤ s.spiFileDesc) (hsize : size < 255) :
    (rfid_fifo_read h buff size s).2.log = s.log ++
      [List.replicate size (u8 (h.REG_READ_OP_MASK ||| (h.FIFODataReg <<< h.REG_ADDR_BIT))) ++ [0]] ∧
    ∀ j, (rfid_fifo_read h buff size s).1 j =
      if j < size then u8 (s.rx s.log.length (j + 1)) else buff j := by
  have hu : u8 size = size := by
    unfold u8
    omega
  have hp : u8 (size + 1) = size + 1 := by
    unfold u8
    omega
  unfold rfid_fifo_read
  simp only [hu, hp, Nat.add_sub_cancel]
  obtain ⟨hl, _, _, hv⟩ := rfid_spi_transfer_log
    (List.replicate size (u8 (h.REG_READ_OP_MASK ||| (h.FIFODataReg <<< h.REG_ADDR_BIT))) ++ [0])
    s.indeterminate (size + 1) s hfd
  constructor
  · rw [hl, List.take_of_length_le (by simp)]
  · intro j
    by_cases hj : j < size
    · rw [if_pos hj, if_pos hj, hv (j + 1), if_pos (by omega)]
    · rw [if_neg hj, if_neg hj]

theorem rfid_spi_transfer_fd (sendBuf : List Nat) (recvBuf : Buffer) (len : Nat) (s : SpiState) :
    (rfid_spi_transfer sendBuf recvBuf len s).2.spiFileDesc = s.spiFileDesc := by
  unfold rfid_spi_transfer
  split <;> rfl

theorem rfid_write_fd (addr data : Nat) (s : SpiState) :
    (rfid_write addr data s).spiFileDesc = s.spiFileDesc := by
  unfold rfid_write
  exact rfid_spi_transfer_fd _ _ _ s

theorem rfid_read_fd (addr : Nat) (s : SpiState) :
    (rfid_read addr s).2.spiFileDesc = s.spiFileDesc := by
  unfold rfid_read
  exact rfid_spi_transfer_fd _ _ _ s

theorem rfid_fifo_write_fd (h : RfidHeader) (buff : List Nat) (size : Nat) (s : SpiState) :
    (rfid_fifo_write h buff size s).spiFileDesc = s.spiFileDesc := by
  unfold rfid_fifo_write
  exact rfid_spi_transfer_fd _ _ _ s

theorem transceive_start_fd (h : RfidHeader) (sendBuf : List Nat) (sendLen : Nat) (s : SpiState) :
    (transceive_start h sendBuf sendLen s).spiFileDesc = s.spiFileDesc := by
  unfold transceive_start
  simp only [rfid_write_fd, rfid_read_fd, rfid_fifo_write_fd]

theorem after_reads_fd (addr : Nat) (n : Nat) :
    ∀ s : SpiState, (after_reads addr n s).spiFileDesc = s.spiFileDesc := by
  induction n with
  | zero =>
    intro s
    rfl
  | succ n ih =>
    intro s
    unfold after_reads
    rw [ih, rfid_read_fd]

theorem level_read_log (h : RfidHeader) (sp : SpiState) (hfd : 0 ≤ sp.spiFileDesc) :
    (level_read h sp).2.log = sp.log ++
      [[u8 (u8 h.BitFramingReg <<< 1), u8 0x00], [u8 (u8 h.CommandReg <<< 1), u8 h.Idle]] ++
      [[u8 ((1 <<< 7) ||| (u8 h.FIFOLevelReg <<< 1)), 0x00]] ∧
    (level_read h sp).2.spiFileDesc = sp.spiFileDesc ∧
    (level_read h sp).2.rx = sp.rx := by
  unfold level_read
  have hfd1 : 0 ≤ (rfid_write h.BitFramingReg 0x00 sp).spiFileDesc := by
    rw [rfid_write_fd]
    exact hfd
  have hfd2 : 0 ≤ (rfid_write h.CommandReg h.Idle (rfid_write h.BitFramingReg 0x00 sp)).spiFileDesc := by
    rw [rfid_write_fd]
    exact hfd1
  refine ⟨?_, ?_, ?_⟩
  · rw [(rfid_read_log h.FIFOLevelReg _ hfd2).1, (rfid_write_log h.CommandReg h.Idle _ hfd1).1,
      (rfid_write_log h.BitFramingReg 0x00 sp hfd).1]
    simp
  · rw [rfid_read_fd, rfid_write_fd, rfid_write_fd]
  · rw [rfid_read_rx, rfid_write_rx, rfid_write_rx]

/-- What `transceive_finish` does with non-null `recvBuf` and `recvLen`. -/
theorem transceive_finish_some (h : RfidHeader) (status : Status) (buf : Buffer) (n : Nat)
    (sp : SpiState) :
    transceive_finish h status (some buf) (some n) sp =
      if status = Status.MI_OK then
        { status := status
          recvBuf := some (rfid_fifo_read h buf (min n (level_read h sp).1) (level_read h sp).2).1
          recvLen := some (min n (level_read h sp).1)
          spi := (rfid_fifo_read h buf (min n (level_read h sp).1) (level_read h sp).2).2 }
      else
        { status := status, recvBuf := some buf, recvLen := some n, spi := (level_read h sp).2 } := by
  have hmin : (if n > (level_read h sp).1 then (level_read h sp).1 else n) =
      min n (level_read h sp).1 := by
    split <;> omega
  unfold transceive_finish
  cases status
  · simp only [if_true]
    rw [← hmin]
    rfl
  · rw [if_neg (by decide)]
    rfl
  · rw [if_neg (by decide)]
    rfl

/-- The bus state `transceive_finish` ends in is the one after the read of
`FIFOLevelReg`, or that one followed by one `rfid_fifo_read`. -/
theorem transceive_finish_spi (h : RfidHeader) (status : Status) (recvBuf : Option Buffer)
    (recvLen : Option Nat) (sp : SpiState) :
    (transceive_finish h status recvBuf recvLen sp).spi = (level_read h sp).2 ∨
    ∃ buf size, (transceive_finish h status recvBuf recvLen sp).spi =
      (rfid_fifo_read h buf size (level_read h sp).2).2 := by
  cases status with
  | MI_OK =>
    cases recvLen with
    | none => exact Or.inl rfl
    | some n =>
      cases recvBuf with
      | none => exact Or.inl rfl
      | some buf => exact Or.inr ⟨buf, _, rfl⟩
  | MI_ERR => cases recvLen <;> exact Or.inl rfl
  | MI_TIMEOUT => cases recvLen <;> exact Or.inl rfl

theorem high_bit_byte (x : Nat) : 128 ≤ u8 (128 ||| x) := by
  have hbit : (u8 (128 ||| x)).testBit 7 = true := by
    unfold u8
    rw [Nat.testBit_mod_two_pow, Nat.testBit_or]
    have : (128 : Nat).testBit 7 = true := by decide
    simp [this]
  exact Nat.testBit_implies_ge hbit

theorem command_byte_low (h : RfidHeader) (hcmd : h.CommandReg < 64) :
    u8 (u8 h.CommandReg <<< 1) < 128 := by
  unfold u8
  rw [Nat.shiftLeft_eq]
  omega

theorem command_writes_append (h : RfidHeader) (a b : List (List Nat)) :
    command_writes h (a ++ b) = command_writes h a ++ command_writes h b := by
  unfold command_writes
  rw [List.filterMap_append]

/-- The single transfer of `rfid_fifo_read` is no write to `CommandReg` when the
read-operation mask has bit 7 and `CommandReg` is a 6-bit address. -/
theorem fifo_frame_no_command_write (h : RfidHeader) (payload : Nat)
    (hcmd : h.CommandReg < 64) (hrd : h.REG_READ_OP_MASK = 0x80) :
    command_writes h
      [(List.replicate (payload - 1)
          (u8 (h.REG_READ_OP_MASK ||| (h.FIFODataReg <<< h.REG_ADDR_BIT))) ++ [0]).take payload] =
      [] := by
  have hlow := command_byte_low h hcmd
  have hhigh := high_bit_byte (h.FIFODataReg <<< h.REG_ADDR_BIT)
  rw [hrd]
  have hne : u8 (128 ||| (h.FIFODataReg <<< h.REG_ADDR_BIT)) ≠ u8 (u8 h.CommandReg <<< 1) := by
    omega
  unfold command_writes
  rcases payload with _ | _ | _ | p
  · simp
  · simp
  · simp [List.replicate, hne]
  · have hlen : ((List.replicate (p + 1 + 1 + 1 - 1)
          (u8 (128 ||| (h.FIFODataReg <<< h.REG_ADDR_BIT))) ++ [0]).take (p + 1 + 1 + 1)).length =
        p + 3 := by
      simp
    generalize (List.replicate (p + 1 + 1 + 1 - 1)
      (u8 (128 ||| (h.FIFODataReg <<< h.REG_ADDR_BIT))) ++ [0]).take (p + 1 + 1 + 1) = frame at hlen
    match frame, hlen with
    | [], hl => simp at hl
    | [_], hl => simp at hl
    | [_, _], hl =>
      simp at hl
    | _ :: _ :: _ :: _, _ => simp

theorem rfid_fifo_read_frame (h : RfidHeader) (buff : Buffer) (size : Nat) (s : SpiState)
    (hfd : 0 ≤ s.spiFileDesc) :
    (rfid_fifo_read h buff size s).2.log = s.log ++
      [(List.replicate (u8 (u8 size + 1) - 1)
          (u8 (h.REG_READ_OP_MASK ||| (h.FIFODataReg <<< h.REG_ADDR_BIT))) ++ [0]).take
        (u8 (u8 size + 1))] := by
  unfold rfid_fifo_read
  exact (rfid_spi_transfer_log _ _ _ s hfd).1

/-- After the poll loop `transceive_finish` writes 0x00 to `BitFramingReg`, then `Idle`
to `CommandReg`, and what follows on the bus holds no write to `CommandReg`. -/
theorem transceive_finish_log (h : RfidHeader) (status : Status) (recvBuf : Option Buffer)
    (recvLen : Option Nat) (sp : SpiState) (hfd : 0 ≤ sp.spiFileDesc)
    (hcmd : h.CommandReg < 64) (hrd : h.REG_READ_OP_MASK = 0x80) :
    ∃ tail, (transceive_finish h status recvBuf recvLen sp).spi.log = sp.log ++
        [[u8 (u8 h.BitFramingReg <<< 1), u8 0x00], [u8 (u8 h.CommandReg <<< 1), u8 h.Idle]] ++
        tail ∧
      command_writes h tail = [] := by
  obtain ⟨hlog, hfd2, _⟩ := level_read_log h sp hfd
  have hlow := command_byte_low h hcmd
  have hhigh := high_bit_byte (u8 h.FIFOLevelReg <<< 1)
  have hrdframe : command_writes h [[u8 ((1 <<< 7) ||| (u8 h.FIFOLevelReg <<< 1)), 0x00]] = [] := by
    have hne : u8 (128 ||| (u8 h.FIFOLevelReg <<< 1)) ≠ u8 (u8 h.CommandReg <<< 1) := by
      omega
    simp [command_writes, hne]
  rcases transceive_finish_spi h status recvBuf recvLen sp with hs | ⟨buf, size, hs⟩
  · refine ⟨[[u8 ((1 <<< 7) ||| (u8 h.FIFOLevelReg <<< 1)), 0x00]], ?_, hrdframe⟩
    rw [hs, hlog]
  · refine ⟨[[u8 ((1 <<< 7) ||| (u8 h.FIFOLevelReg <<< 1)), 0x00]] ++
      [(List.replicate (u8 (u8 size + 1) - 1)
          (u8 (h.REG_READ_OP_MASK ||| (h.FIFODataReg <<< h.REG_ADDR_BIT))) ++ [0]).take
        (u8 (u8 size + 1))], ?_, ?_⟩
    · rw [hs, rfid_fifo_read_frame h buf size _ (by rw [hfd2]; exact hfd), hlog]
      simp
    · rw [command_writes_append, hrdframe, fifo_frame_no_command_write h _ hcmd hrd]
      rfl

/-- C17: for every bus behaviour, with the bus open, `CommandReg` a 6-bit register
address and bit 7 the read-operation mask, whatever status the poll loop of
`rfid_transceive` ends with: the transfers that follow the loop begin with the write of
0x00 to `BitFramingReg` (start-send bit clear) and the write of `Idle` to `CommandReg`,
the transfers after these hold no write to `CommandReg`, and so the last value the
exchange has written to `CommandReg` is `Idle`. -/
theorem C17_command_register_left_idle (h : RfidHeader) (fuel : Nat) (sendBuf : List Nat)
    (sendLen : Nat) (recvBuf : Option Buffer) (recvLen : Option Nat) (s : SpiState)
    (hfuel : 2500 ≤ fuel) (hfd : 0 ≤ s.spiFileDesc)
    (hcmd : h.CommandReg < 64) (hrd : h.REG_READ_OP_MASK = 0x80) :
    ∃ st e sp r tail,
      poll_loop h fuel 0 (transceive_start h sendBuf sendLen s) = some (st, e, sp) ∧
      rfid_transceive h fuel sendBuf sendLen recvBuf recvLen s = some r ∧
      r.status = st ∧
      r.spi.log = sp.log ++
        [[u8 (u8 h.BitFramingReg <<< 1), u8 0x00], [u8 (u8 h.CommandReg <<< 1), u8 h.Idle]] ++
        tail ∧
      u8 0x00 &&& (1 <<< h.BITFRAMINGREG_STARTSEND_BIT) = 0 ∧
      command_writes h tail = [] ∧
      (command_writes h r.spi.log).getLast? = some (u8 h.Idle) := by
  obtain ⟨n, st, _, _, hpoll⟩ :=
    poll_loop_returns h 2500 fuel 0 (transceive_start h sendBuf sendLen s) (by decide) hfuel
      (by decide) (by decide)
  have hfdp : 0 ≤ (after_reads h.ComIrqReg n (transceive_start h sendBuf sendLen s)).spiFileDesc := by
    rw [after_reads_fd, transceive_start_fd]
    exact hfd
  obtain ⟨tail, hlog, htail⟩ := transceive_finish_log h st recvBuf recvLen _ hfdp hcmd hrd
  refine ⟨st, _, _, _, tail, hpoll, ?_, transceive_finish_status h st recvBuf recvLen _, hlog,
    by simp [u8], htail, ?_⟩
  · unfold rfid_transceive
    simp only [hpoll]
  · rw [hlog, command_writes_append, command_writes_append, htail]
    have hcw : command_writes h
        [[u8 (u8 h.BitFramingReg <<< 1), u8 0x00], [u8 (u8 h.CommandReg <<< 1), u8 h.Idle]] =
        command_writes h [[u8 (u8 h.BitFramingReg <<< 1), u8 0x00]] ++ [u8 h.Idle] := by
      have hone : command_writes h [[u8 (u8 h.CommandReg <<< 1), u8 h.Idle]] = [u8 h.Idle] := by
        simp [command_writes]
      have happ := command_writes_append h [[u8 (u8 h.BitFramingReg <<< 1), u8 0x00]]
        [[u8 (u8 h.CommandReg <<< 1), u8 h.Idle]]
      rw [hone] at happ
      exact happ
    rw [hcw]
    simp

theorem C17_command_register_left_idle_witness :
    2500 ≤ 2500 ∧ 0 ≤ timer_first_bus.spiFileDesc ∧ mfrc522.CommandReg < 64 ∧
    mfrc522.REG_READ_OP_MASK = 0x80 ∧
    (rfid_transceive mfrc522 2500 [0x26] 1 none none timer_first_bus).map
        (fun r => (r.status, command_writes mfrc522 r.spi.log)) =
      some (Status.MI_ERR, [0x00, 0x0C, 0x00]) ∧
    (rfid_transceive mfrc522 2500 [0x93, 0x20] 2 (some (fun _ => 0)) (some 5) card_bus).map
        (fun r => (r.status, command_writes mfrc522 r.spi.log)) =
      some (Status.MI_OK, [0x00, 0x0C, 0x00]) ∧
    ∃ st e sp r tail,
      poll_loop mfrc522 2500 0 (transceive_start mfrc522 [0x26] 1 timer_first_bus) =
        some (st, e, sp) ∧
      rfid_transceive mfrc522 2500 [0x26] 1 none none timer_first_bus = some r ∧
      r.status = st ∧
      r.spi.log = sp.log ++
        [[u8 (u8 mfrc522.BitFramingReg <<< 1), u8 0x00],
         [u8 (u8 mfrc522.CommandReg <<< 1), u8 mfrc522.Idle]] ++ tail ∧
      u8 0x00 &&& (1 <<< mfrc522.BITFRAMINGREG_STARTSEND_BIT) = 0 ∧
      command_writes mfrc522 tail = [] ∧
      (command_writes mfrc522 r.spi.log).getLast? = some (u8 mfrc522.Idle) :=
  ⟨by decide, by decide, by decide, rfl, by decide, by decide,
    C17_command_register_left_idle mfrc522 2500 [0x26] 1 none none timer_first_bus
      (by decide) (by decide) (by decide) rfl⟩

/-- For a clamped length below 255: on `MI_OK` with non-null `recvBuf` and `recvLen`,
`*recvLen` becomes `min(n, f)`, one FIFO transfer of `min(n, f) + 1` bytes is made and
its bytes 1 to `min(n, f)` land in `recvBuf`; on another status there is no transfer
after the read of `FIFOLevelReg`, and `*recvLen` and `recvBuf` are as they were. -/
theorem transceive_finish_clamped_read (h : RfidHeader) (status : Status) (buf : Buffer)
    (n : Nat) (sp : SpiState) (hfd : 0 ≤ sp.spiFileDesc) :
    (status = Status.MI_OK → min n (level_read h sp).1 < 255 →
      (transceive_finish h status (some buf) (some n) sp).recvLen =
        some (min n (level_read h sp).1) ∧
      (transceive_finish h status (some buf) (some n) sp).spi.log =
        (level_read h sp).2.log ++
          [List.replicate (min n (level_read h sp).1)
            (u8 (h.REG_READ_OP_MASK ||| (h.FIFODataReg <<< h.REG_ADDR_BIT))) ++ [0]] ∧
      ∃ b, (transceive_finish h status (some buf) (some n) sp).recvBuf = some b ∧
        ∀ j, b j = if j < min n (level_read h sp).1
          then u8 (sp.rx (level_read h sp).2.log.length (j + 1)) else buf j) ∧
    (status ≠ Status.MI_OK →
      (transceive_finish h status (some buf) (some n) sp).recvLen = some n ∧
      (transceive_finish h status (some buf) (some n) sp).recvBuf = some buf ∧
      (transceive_finish h status (some buf) (some n) sp).spi = (level_read h sp).2) := by
  obtain ⟨_, hfd2, hrx⟩ := level_read_log h sp hfd
  rw [transceive_finish_some]
  constructor
  · intro hok hlt
    rw [if_pos hok]
    obtain ⟨hl, hv⟩ := rfid_fifo_read_log h buf (min n (level_read h sp).1) (level_read h sp).2
      (by rw [hfd2]; exact hfd) hlt
    refine ⟨rfl, hl, _, rfl, ?_⟩
    intro j
    rw [hv j, hrx]
  · intro hne
    rw [if_neg hne]
    exact ⟨rfl, rfl, rfl⟩

/-- C18: for every requested inbound length `n` and FIFO level `f` read from
`FIFOLevelReg` with `min(n, f) ≤ 254` (the sizes for which `payload = size + 1` of
`rfid_fifo_read` fits its `uint8_t`; every call in the repository has `n = 5`), on an
open bus: `rfid_transceive` returns; when the poll status is `MI_OK` it sets `*recvLen`
to `min(n, f)`, makes one FIFO transfer of `min(n, f) + 1` bytes and stores the bytes 1
to `min(n, f)` clocked in into `recvBuf[0 .. min(n, f) - 1]`, the rest of `recvBuf`
being as before; when the status is `MI_ERR` or `MI_TIMEOUT` the bus state is the one
right after the read of `FIFOLevelReg` (no FIFO read), and `*recvLen` and `recvBuf` are
unchanged. -/
theorem C18_clamped_fifo_read (h : RfidHeader) (fuel : Nat) (sendBuf : List Nat)
    (sendLen : Nat) (buf : Buffer) (n : Nat) (s : SpiState)
    (hfuel : 2500 ≤ fuel) (hfd : 0 ≤ s.spiFileDesc) :
    ∃ st e sp r,
      poll_loop h fuel 0 (transceive_start h sendBuf sendLen s) = some (st, e, sp) ∧
      rfid_transceive h fuel sendBuf sendLen (some buf) (some n) s = some r ∧
      r.status = st ∧
      (st = Status.MI_OK → min n (level_read h sp).1 < 255 →
        r.recvLen = some (min n (level_read h sp).1) ∧
        r.spi.log = (level_read h sp).2.log ++
          [List.replicate (min n (level_read h sp).1)
            (u8 (h.REG_READ_OP_MASK ||| (h.FIFODataReg <<< h.REG_ADDR_BIT))) ++ [0]] ∧
        ∃ b, r.recvBuf = some b ∧
          ∀ j, b j = if j < min n (level_read h sp).1
            then u8 (sp.rx (level_read h sp).2.log.length (j + 1)) else buf j) ∧
      (st ≠ Status.MI_OK →
        r.recvLen = some n ∧ r.recvBuf = some buf ∧ r.spi = (level_read h sp).2) := by
  obtain ⟨k, st, _, _, hpoll⟩ :=
    poll_loop_returns h 2500 fuel 0 (transceive_start h sendBuf sendLen s) (by decide) hfuel
      (by decide) (by decide)
  have hfdp : 0 ≤ (after_reads h.ComIrqReg k (transceive_start h sendBuf sendLen s)).spiFileDesc := by
    rw [after_reads_fd, transceive_start_fd]
    exact hfd
  have hfin := transceive_finish_clamped_read h st buf n
    (after_reads h.ComIrqReg k (transceive_start h sendBuf sendLen s)) hfdp
  refine ⟨st, _, _, _, hpoll, ?_, transceive_finish_status h st (some buf) (some n) _,
    hfin.1, hfin.2⟩
  unfold rfid_transceive
  simp only [hpoll]

theorem C18_clamped_fifo_read_witness :
    2500 ≤ 2500 ∧ 0 ≤ level_three_bus.spiFileDesc ∧
    (rfid_transceive mfrc522 2500 [0x93, 0x20] 2 (some (fun _ => 0)) (some 5) level_three_bus).map
        (fun r => (r.status, r.recvLen, r.spi.log.getLast?,
          (r.recvBuf.getD (fun _ => 0)) 0, (r.recvBuf.getD (fun _ => 0)) 2,
          (r.recvBuf.getD (fun _ => 0)) 3)) =
      some (Status.MI_OK, some 3, some [0x92, 0x92, 0x92, 0x00], 0x20, 0x20, 0) ∧
    (rfid_transceive mfrc522 2500 [0x93, 0x20] 2 (some (fun _ => 7)) (some 5) timer_first_bus).map
        (fun r => (r.status, r.recvLen, r.spi.log.getLast?, (r.recvBuf.getD (fun _ => 0)) 0)) =
      some (Status.MI_ERR, some 5, some [0x94, 0x00], 7) ∧
    ∃ st e sp r,
      poll_loop mfrc522 2500 0 (transceive_start mfrc522 [0x93, 0x20] 2 level_three_bus) =
        some (st, e, sp) ∧
      rfid_transceive mfrc522 2500 [0x93, 0x20] 2 (some (fun _ => 0)) (some 5) level_three_bus =
        some r ∧
      r.status = st ∧
      (st = Status.MI_OK → min 5 (level_read mfrc522 sp).1 < 255 →
        r.recvLen = some (min 5 (level_read mfrc522 sp).1) ∧
        r.spi.log = (level_read mfrc522 sp).2.log ++
          [List.replicate (min 5 (level_read mfrc522 sp).1)
            (u8 (mfrc522.REG_READ_OP_MASK ||| (mfrc522.FIFODataReg <<< mfrc522.REG_ADDR_BIT))) ++
              [0]] ∧
        ∃ b, r.recvBuf = some b ∧
          ∀ j, b j = if j < min 5 (level_read mfrc522 sp).1
            then u8 (sp.rx (level_read mfrc522 sp).2.log.length (j + 1)) else (fun _ => 0) j) ∧
      (st ≠ Status.MI_OK →
        r.recvLen = some 5 ∧ r.recvBuf = some (fun _ => 0) ∧ r.spi = (level_read mfrc522 sp).2) :=
  ⟨by decide, by decide, by decide, by decide,
    C18_clamped_fifo_read mfrc522 2500 [0x93, 0x20] 2 (fun _ => 0) 5 level_three_bus
      (by decide) (by decide)⟩

end SmartDoor
